import Mathlib

/-!
Verification of the dependency-detection module (`mesonbuild/dependencies/base.py`).

The Python source is shallowly embedded: every external signal the code
consults (platform flags, filesystem contents, subprocess results, the
ambient compiler collaborator) is a field of an explicit `Env` record, and
each constructor/function of the source becomes a pure Lean function over
`Env`.  Exceptions are modelled with `Except DepError`, the process-wide
memoized pkg-config path with an explicit `PkgBinState` value threaded
through the functions that read or write it, and user-visible `mlog.log`
output (where a claim depends on it) as a list of logged token lists.
-/

namespace Meson

/-!
String primitives.  The model re-implements the Python string operations it
needs over `List Char` with structural recursion only, so that every
definition evaluates inside the kernel (`decide`/`rfl`) on concrete inputs.
-/

/-- `", ".join`-style joining (Python `sep.join(list)`). -/
def joinSep (sep : String) : List String → String
  | [] => ""
  | [s] => s
  | s :: rest => s ++ sep ++ joinSep sep rest

/-- Python `"".join`. -/
def strJoin (l : List String) : String := ⟨(l.map String.data).flatten⟩

/-- Python `str.startswith`. -/
def strStartsWith (s pre : String) : Bool := pre.data.isPrefixOf s.data

/-- Python `str.endswith`. -/
def strEndsWith (s suf : String) : Bool := suf.data.isSuffixOf s.data

/-- Python slicing `s[n:]` (by code point). -/
def strDrop (s : String) (n : Nat) : String := ⟨s.data.drop n⟩

/-- Python slicing `s[:-n]`. -/
def strDropRight (s : String) (n : Nat) : String := ⟨s.data.take (s.data.length - n)⟩

/-- Python slicing `s[-n:]`. -/
def strTakeRight (s : String) (n : Nat) : String := ⟨s.data.drop (s.data.length - n)⟩

/-- Python `str.strip()`. -/
def strTrim (s : String) : String :=
  ⟨((s.data.dropWhile Char.isWhitespace).reverse.dropWhile Char.isWhitespace).reverse⟩

/-- Python `str.lower()` (ASCII, which covers every name the source lowers). -/
def strToLower (s : String) : String := ⟨s.data.map Char.toLower⟩

/-- Split a character list at every character satisfying `p`, keeping empty
parts — the skeleton of Python `str.split(sep)` for one-character separators. -/
def splitOnP (p : Char → Bool) : List Char → List (List Char)
  | [] => [[]]
  | c :: rest =>
    let r := splitOnP p rest
    if p c then [] :: r
    else match r with
      | hd :: tl => (c :: hd) :: tl
      | [] => [[c]]

/-- Python `s.split(sep)` for a one-character separator. -/
def strSplitOnChar (s : String) (sep : Char) : List String :=
  (splitOnP (fun c => c = sep) s.data).map (fun l => ⟨l⟩)

/-- Python `needle in hay` substring containment. -/
def containsSub (needle : String) : List Char → Bool
  | [] => needle.data.isEmpty
  | c :: rest => needle.data.isPrefixOf (c :: rest) || containsSub needle rest

/-- Python `s.replace(old, new)` for one-character `old`/`new`. -/
def replaceChar (s : String) (old new : Char) : String :=
  ⟨s.data.map (fun c => if c = old then new else c)⟩

/-- Is the string a non-empty digit sequence (so Python `int()` accepts it)? -/
def digitsOnly (s : String) : Bool := !s.data.isEmpty && s.data.all Char.isDigit

/-- The numeric value of a digit string. -/
def natOfDigits (s : String) : Nat := s.data.foldl (fun n c => n * 10 + (c.toNat - 48)) 0

/-- Single quote character, used when rendering Python-style quoted reprs. -/
def sq : String := ⟨[Char.ofNat 39]⟩

/-- Python `repr` of a string, approximated as the string wrapped in single quotes. -/
def pyq (s : String) : String := sq ++ s ++ sq

/-- Python `repr` of a list of strings. -/
def pyReprStrList (l : List String) : String :=
  "[" ++ joinSep ", " (l.map pyq) ++ "]"

/-- Python `str.split()` with no argument: split on whitespace runs, dropping empties. -/
def splitWs (s : String) : List String :=
  ((splitOnP Char.isWhitespace s.data).filter (fun t => t ≠ [])).map (fun l => ⟨l⟩)

/-- `os.path.join(dir, name)` (POSIX-style, `/` separator, as used by the source). -/
def pathJoin (dir name : String) : String :=
  if strStartsWith name "/" then name
  else if dir = "" then name
  else if strEndsWith dir "/" then dir ++ name
  else dir ++ "/" ++ name

/-- `os.path.dirname`: everything before the last `/`, with Python's trailing-slash
normalization (`dirname "/b" = "/"`, `dirname "b" = ""`). -/
def dirname (p : String) : String :=
  let cs := p.toList
  let head := (cs.reverse.dropWhile (fun c => c ≠ '/')).reverse
  if head.isEmpty ∨ head.all (fun c => c = '/') then String.mk head
  else String.mk ((head.reverse.dropWhile (fun c => c = '/')).reverse)

/-- `os.path.basename`: everything after the last `/`. -/
def basename (p : String) : String :=
  String.mk ((p.toList.reverse.takeWhile (fun c => c ≠ '/')).reverse)

/-- Split a character list at its last `.`; the extension keeps the dot.
Returns `none` when there is no dot. -/
def splitAtLastDot : List Char → Option (List Char × List Char)
  | [] => none
  | c :: rest =>
    match splitAtLastDot rest with
    | some (a, b) => some (c :: a, b)
    | none => if c = '.' then some ([], c :: rest) else none

/-- `os.path.splitext`: split off the extension of the basename, ignoring the
basename's leading dots (so `".bashrc"` has no extension). -/
def splitext (p : String) : String × String :=
  let cs := p.toList
  let dir := (cs.reverse.dropWhile (fun c => c ≠ '/')).reverse
  let base := (cs.reverse.takeWhile (fun c => c ≠ '/')).reverse
  let lead := base.takeWhile (fun c => c = '.')
  let rest := base.drop lead.length
  match splitAtLastDot rest with
  | none => (p, "")
  | some (root, ext) => (String.mk (dir ++ lead ++ root), String.mk ext)

/-- `os.path.isabs`, for the POSIX-style paths used in this development. -/
def isAbs (p : String) : Bool := strStartsWith p "/"

/-- Python `s.split(sep, 1)` for a one-character separator: the part before
the first separator and, when the separator occurs, the rest. -/
def splitOnce (s : String) (sep : Char) : String × Option String :=
  match strSplitOnChar s sep with
  | [] => (s, none)
  | [x] => (x, none)
  | x :: rest => (x, some (joinSep ⟨[sep]⟩ rest))

/-- Python `s.split(sep, 1)[-1]`. -/
def splitOnceLast (s : String) (sep : Char) : String :=
  match splitOnce s sep with
  | (_, some b) => b
  | (a, none) => a

/-- An atomic Python keyword-argument value: string, integer or boolean. -/
inductive MAtom where
  | aStr (s : String)
  | aInt (n : Int)
  | aBool (b : Bool)
deriving DecidableEq, Repr

/-- A Python keyword-argument value: an atom or a (possibly nested) list. -/
inductive MVal where
  | atom (a : MAtom)
  | list (l : List MVal)

/-- Python truthiness of an atom. -/
def MAtom.truthy : MAtom → Bool
  | .aStr s => s ≠ ""
  | .aInt n => n ≠ 0
  | .aBool b => b

/-- Python truthiness of a keyword-argument value. -/
def MVal.truthy : MVal → Bool
  | .atom a => a.truthy
  | .list l => !l.isEmpty

/-- Rendering of an atom as Python string conversion would produce. -/
def MAtom.render : MAtom → String
  | .aStr s => s
  | .aInt n => toString n
  | .aBool b => if b then "True" else "False"

mutual
/-- Python string conversion of a keyword-argument value. -/
def MVal.render : MVal → String
  | .atom a => a.render
  | .list l => "[" ++ joinSep ", " (MVal.renderL l) ++ "]"

/-- Python string conversion of each element of a list value. -/
def MVal.renderL : List MVal → List String
  | [] => []
  | v :: rest => MVal.render v :: MVal.renderL rest
end

mutual
/-- `mesonbuild.mesonlib.flatten` on a single item, collecting the atoms.
Modelled from the spec: `flatten` (imported by the source, defined outside it)
flattens arbitrarily nested lists; the identifier code notes values are
"strings, ints, or lists (or lists of lists)". -/
def flattenV : MVal → List MAtom
  | .atom a => [a]
  | .list l => flattenL l

/-- `flatten` applied to a list: the flat list of atoms under it. -/
def flattenL : List MVal → List MAtom
  | [] => []
  | v :: rest => flattenV v ++ flattenL rest
end

/-- Keyword arguments: a Python `dict` as an insertion-ordered association list. -/
abbrev Kwargs := List (String × MVal)

/-- `kwargs.get(key)`: value of the first entry with the given key, if any. -/
def kwargsGet (kwargs : Kwargs) (key : String) : Option MVal :=
  match List.find? (fun p => p.1 = key) kwargs with
  | some p => some p.2
  | none => none

/-- The `DependencyMethods` enumeration of the source. -/
inductive DependencyMethods where
  | auto
  | pkgconfig
  | qmake
  | system
  | sdlconfig
  | extraframework
  | sysconfig
deriving DecidableEq, Repr

/-- The `.value` string of each `DependencyMethods` member. -/
def DependencyMethods.value : DependencyMethods → String
  | .auto => "auto"
  | .pkgconfig => "pkg-config"
  | .qmake => "qmake"
  | .system => "system"
  | .sdlconfig => "sdlconfig"
  | .extraframework => "extraframework"
  | .sysconfig => "sysconfig"

/-- `DependencyMethods(value)`: look a member up by its value string. -/
def strToMethod (s : String) : Option DependencyMethods :=
  if s = "auto" then some .auto
  else if s = "pkg-config" then some .pkgconfig
  else if s = "qmake" then some .qmake
  else if s = "system" then some .system
  else if s = "sdlconfig" then some .sdlconfig
  else if s = "extraframework" then some .extraframework
  else if s = "sysconfig" then some .sysconfig
  else none

/-- The exceptions the module can raise: `DependencyException`, other
`MesonException`s (the unsupported-method error is kept structured, carrying
the requested method and the allowed list), and the Python-level errors
(`ValueError` from an invalid enum value, `TypeError`, `IndexError`,
`OSError`) that some inputs can produce. -/
inductive DepError where
  | dependencyExc (msg : String)
  | unsupportedMethod (requested : DependencyMethods) (allowed : List DependencyMethods)
  | valueError (msg : String)
  | typeError (msg : String)
  | indexError (msg : String)
  | osError (msg : String)
deriving DecidableEq, Repr

/-- Modelled from the spec: `mlog.format_list` (defined outside the source)
joins the items of a list into one human-readable string naming each of them. -/
def format_list : List String → String
  | [] => ""
  | [s] => s
  | s :: rest => s ++ ", " ++ format_list rest

/-- The human-readable message carried by each exception
(for the unsupported-method error, the format string of `Dependency.__init__`). -/
def DepError.message : DepError → String
  | .dependencyExc m => m
  | .unsupportedMethod requested allowed =>
      "Unsupported detection method: " ++ requested.value ++
        ", allowed methods are " ++
        format_list ((DependencyMethods.auto :: allowed).map DependencyMethods.value)
  | .valueError m => m
  | .typeError m => m
  | .indexError m => m
  | .osError m => m

/-- The method-selection logic of `Dependency.__init__`: `auto` expands to the
detector's full method list, an allowed explicit method narrows to itself, and
anything else raises the unsupported-method `MesonException`. -/
def setMethods (getMethods : List DependencyMethods) (method : DependencyMethods) :
    Except DepError (List DependencyMethods) :=
  if method = .auto then .ok getMethods
  else if method ∈ getMethods then .ok [method]
  else .error (.unsupportedMethod method getMethods)

/-- `DependencyMethods(kwargs.get("method", "auto"))`: parse the requested
method; a non-string raises `ValueError` (the enum constructor's behavior),
as does a string that is no member's value. -/
def parseMethodVal : MVal → Except DepError DependencyMethods
  | .atom (.aStr s) =>
    match strToMethod s with
    | some m => .ok m
    | none => .error (.valueError (pyq s ++ " is not a valid DependencyMethods"))
  | _ => .error (.valueError "not a valid DependencyMethods")

/-- `Dependency.__init__`'s whole method handling for a detector whose
`get_methods()` returns `getMethods`. -/
def dependencyInitMethods (getMethods : List DependencyMethods) (kwargs : Kwargs) :
    Except DepError (List DependencyMethods) :=
  match parseMethodVal ((kwargsGet kwargs "method").getD (.atom (.aStr "auto"))) with
  | .error e => .error e
  | .ok m => setMethods getMethods m

/-- A version-comparison operator. -/
inductive VOp where
  | vlt | vle | veq | vne | vge | vgt
deriving DecidableEq, Repr

/-- Modelled from the spec: the requirement parser of `mesonlib.version_compare`
(defined outside the source).  A requirement is an optional operator prefix
(one of `<, <=, =, !=, >=, >`, default `=` when omitted) plus a version string. -/
def parseReq (s : String) : VOp × String :=
  if strStartsWith s ">=" then (.vge, strDrop s 2)
  else if strStartsWith s "<=" then (.vle, strDrop s 2)
  else if strStartsWith s "!=" then (.vne, strDrop s 2)
  else if strStartsWith s "==" then (.veq, strDrop s 2)
  else if strStartsWith s "=" then (.veq, strDrop s 1)
  else if strStartsWith s ">" then (.vgt, strDrop s 1)
  else if strStartsWith s "<" then (.vlt, strDrop s 1)
  else (.veq, s)

/-- Split a version string into its dot-and-hyphen-separated components. -/
def verComponents (s : String) : List String :=
  (splitOnP (fun c => c = '.' || c = '-') s.data).map (fun l => ⟨l⟩)

/-- Compare one pair of components: numeric components compare numerically,
anything else lexically. -/
def compareComp (a b : String) : Ordering :=
  if digitsOnly a ∧ digitsOnly b then compare (natOfDigits a) (natOfDigits b)
  else compare a b

/-- Pad a component list with `"0"` entries up to the given length. -/
def padTo (l : List String) (n : Nat) : List String :=
  l ++ List.replicate (n - l.length) "0"

/-- Pairwise comparison of two equal-length component lists. -/
def compareCompsAux : List String → List String → Ordering
  | [], _ => .eq
  | _ :: _, [] => .eq
  | a :: as', b :: bs => match compareComp a b with
    | .eq => compareCompsAux as' bs
    | o => o

/-- Modelled from the spec: component-wise version comparison, the shorter
version zero-padded to the longer's length. -/
def compareVerComps (a b : List String) : Ordering :=
  let n := max a.length b.length
  compareCompsAux (padTo a n) (padTo b n)

/-- Modelled from the spec: `mesonlib.version_compare` — does candidate
version `v` satisfy the single requirement `req`? -/
def version_compare (v req : String) : Bool :=
  let (op, rv) := parseReq req
  let ord := compareVerComps (verComponents v) (verComponents rv)
  match op with
  | .vlt => ord = .lt
  | .vle => ord ≠ .gt
  | .veq => ord = .eq
  | .vne => ord ≠ .eq
  | .vge => ord ≠ .lt
  | .vgt => ord = .gt

/-- Modelled from the spec: `mesonlib.version_compare_many` — all requirements
must hold; returns overall satisfaction plus the unmet and met sublists. -/
def version_compare_many (v : String) (reqs : List String) :
    Bool × List String × List String :=
  let notFound := reqs.filter (fun r => !version_compare v r)
  let found := reqs.filter (fun r => version_compare v r)
  (notFound.isEmpty, notFound, found)

/-- Every external signal the module consults, as one explicit record:
platform identity, filesystem and subprocess behavior, the cross
configuration, and the ambient-collaborator interfaces (compiler,
`sysconfig`).  A fixed `Env` value plays the role of one frozen process
state in which a lookup runs. -/
structure Env where
  isWindows : Bool
  isOSX : Bool
  isCrossBuild : Bool
  pathExists : String → Bool
  accessX : String → Bool
  isDir : String → Bool
  listdir : String → List String
  fileFirstLine : String → Option String
  fileLines : String → Option (List String)
  whichResult : String → Option String
  sysExecutable : String
  osEnviron : String → Option String
  popenVersionRet : String → Option Int
  callPkgbin : String → List String → Int × String
  crossHasPkgconfig : Bool
  crossPkgconfigName : String
  glob : String → List String
  libraryDirs : List String
  compilersHasCpp : Bool
  detectCpuFamily : String
  findLibrary : String → Option (List String)
  getIncludeArgs : String → Bool → List String
  pyPlatform : String
  pyPathInclude : String
  pyPathPlatinclude : String
  pyConfBase : String
  pyConfVernum : String
  pyConfVersionShort : String

/-- The recognized Windows executable extensions (`ExternalProgram.windows_exts`). -/
def windows_exts : List String := ["exe", "msc", "com", "bat"]

/-- `ExternalProgram._shebang_to_cmd`: read the script's first line; when it
starts with `#!`, split it (ignoring anything after a secondary `#`) and, on
Windows, strip UNIX directories from the interpreter, drop a leading `env`,
and substitute the known interpreter for `python3`.  `none` models the
`return False` of the source (including the exception-swallowing path). -/
def shebang_to_cmd (env : Env) (script : String) : Option (List String) :=
  match env.fileFirstLine script with
  | none => none
  | some raw =>
    let first_line := strTrim raw
    if strStartsWith first_line "#!" then
      let commands := splitWs (strTrim ((strSplitOnChar (strDrop first_line 2) '#').headD ""))
      if env.isWindows then
        match commands with
        | [] => none
        | c0 :: rest =>
          let c0 := if strStartsWith c0 "/" then (strSplitOnChar c0 '/').getLastD c0 else c0
          let commands := if c0 = "env" then rest else c0 :: rest
          let commands := match commands with
            | "python3" :: r => env.sysExecutable :: r
            | l => l
          some (commands ++ [script])
      else some (commands ++ [script])
    else none

/-- `ExternalProgram._is_executable`: on Windows an executable extension is
required; elsewhere the execute bit (on a non-directory) decides. -/
def is_executable (env : Env) (path : String) : Bool :=
  let suffix := strDrop (strToLower (splitext path).2) 1
  if env.isWindows then windows_exts.contains suffix
  else if env.accessX path then !env.isDir path
  else false

/-- `ExternalProgram._search_dir`: look for the name inside one directory,
falling back to shebang parsing for non-executable hits and, on Windows, to
appending each executable extension. -/
def search_dir (env : Env) (name : String) (search_dirArg : Option String) :
    Option (List String) :=
  match search_dirArg with
  | none => none
  | some sd =>
    let trial := pathJoin sd name
    if env.pathExists trial then
      if is_executable env trial then some [trial]
      else shebang_to_cmd env trial
    else if env.isWindows then
      match windows_exts.find? (fun ext => env.pathExists (trial ++ "." ++ ext)) with
      | some ext => some [trial ++ "." ++ ext]
      | none => none
    else none

/-- The first `some` among the directory searches, scanning left to right. -/
def firstDirHit (env : Env) (name : String) : List String → Option (List String)
  | [] => none
  | d :: ds =>
    match search_dir env name (some d) with
    | some cmds => some cmds
    | none => firstDirHit env name ds

/-- `ExternalProgram._search`: the search-directory probe, then a PATH
search, then (on Windows) the shebang/extension/manual-PATH fallbacks.
Elements are `Option String`, `none` being the absent marker the source
stores as the single element `[None]`. -/
def program_search (env : Env) (name : String) (search_dirArg : Option String) :
    List (Option String) :=
  match search_dir env name search_dirArg with
  | some commands => commands.map some
  | none =>
    let command := env.whichResult name
    if !env.isWindows then [command]
    else
      match command with
      | some cmd =>
        let name_ext := (splitext cmd).2
        if windows_exts.contains (strToLower (strDrop name_ext 1)) then [some cmd]
        else
          match shebang_to_cmd env cmd with
          | some commands => commands.map some
          | none => [none]
      | none =>
        let extHit :=
          if isAbs name then
            windows_exts.find? (fun ext => env.pathExists (name ++ "." ++ ext))
          else none
        match extHit with
        | some ext => [some (name ++ "." ++ ext)]
        | none =>
          match firstDirHit env name (strSplitOnChar ((env.osEnviron "PATH").getD "") ';') with
          | some commands => commands.map some
          | none => [none]

/-- An explicit command override: in Python either a single string or a list. -/
inductive CmdArg where
  | one (s : String)
  | many (l : List String)
deriving DecidableEq, Repr

/-- The resolved state of an `ExternalProgram`. -/
structure ExternalProgram where
  name : String
  command : List (Option String)
deriving DecidableEq, Repr

/-- `ExternalProgram.__init__`: an override is stored verbatim (a bare string
is wrapped in a singleton list); otherwise the search runs. -/
def externalProgramMk (env : Env) (name : String) (command : Option CmdArg)
    (search_dirArg : Option String) : ExternalProgram :=
  { name := name
  , command :=
      match command with
      | some (.one s) => [some s]
      | some (.many l) => l.map some
      | none => program_search env name search_dirArg }

/-- `ExternalProgram.found`: `command[0] is not None`.  (On the empty list the
source would raise `IndexError`; no reachable construction produces one.) -/
def ExternalProgram.foundB (p : ExternalProgram) : Bool :=
  match p.command with
  | some _ :: _ => true
  | _ => false

/-- `ExternalProgram.get_command` (a copy of the stored vector). -/
def ExternalProgram.get_command (p : ExternalProgram) : List (Option String) :=
  p.command

/-- User-visible `mlog.log` output: each entry is the token list of one call.
Only the `found_msg` reporting of `PkgConfigDependency.__init__` (and the
orchestrator's final not-found line) is captured; other presentation output
is out of the model's scope. -/
abbrev Log := List (List String)

/-- `PkgConfigDependency.class_pkgbin`, the process-wide memoized pkg-config
path: never searched yet (`None`), searched and absent (`False`), or a path. -/
inductive PkgBinState where
  | unset
  | notFound
  | found (p : String)
deriving DecidableEq, Repr

/-- `PkgConfigDependency.check_pkgconfig`: take the `PKG_CONFIG` override or
`pkg-config`, run `--version` (a non-zero exit or a raised
`FileNotFoundError`/`PermissionError` yields the absent marker), and
absolutize a relative name through the PATH search when that succeeds. -/
def check_pkgconfig (env : Env) : Option String :=
  let pkgbin := ((env.osEnviron "PKG_CONFIG").map strTrim).getD "pkg-config"
  match env.popenVersionRet pkgbin with
  | none => none
  | some ret =>
    if ret ≠ 0 then none
    else
      if pkgbin ≠ "" && !isAbs pkgbin then
        match env.whichResult pkgbin with
        | some w => some w
        | none => some pkgbin
      else some pkgbin

/-- The pkg-config binary resolution of `PkgConfigDependency.__init__`:
the cross branch resolves the cross-file name independently and stores a
successful resolution in the class state; the native branch searches only
when the class state is unset and otherwise reuses it. -/
def resolvePkgbin (env : Env) (want_cross required : Bool) (st : PkgBinState) :
    Except DepError (Option String) × PkgBinState :=
  if want_cross then
    if !env.crossHasPkgconfig then
      if required then (.error (.dependencyExc "Pkg-config binary missing from cross file"), st)
      else (.ok none, st)
    else
      let potential := externalProgramMk env env.crossPkgconfigName none none
      match potential.get_command with
      | some p :: _ => (.ok (some p), .found p)
      | _ => (.ok none, st)
  else
    match st with
    | .unset =>
      match check_pkgconfig env with
      | none => (.ok none, .notFound)
      | some p => (.ok (some p), .found p)
    | .notFound => (.ok none, st)
    | .found p => (.ok (some p), st)

/-- `PkgConfigDependency.extract_field` on the lines of an opened file:
first `key=value` line matching the field, value stripped of its first and
last character; a matching line with no `=` raises `IndexError`. -/
def extract_field_lines : List String → String → Except DepError (Option String)
  | [], _ => .ok none
  | line :: rest, fieldname =>
    let arr := strSplitOnChar (strTrim line) '='
    if arr.headD "" = fieldname then
      match arr with
      | _ :: v :: _ => .ok (some (strDropRight (strDrop v 1) 1))
      | _ => .error (.indexError "list index out of range")
    else extract_field_lines rest fieldname

/-- `PkgConfigDependency.extract_field`: open the libtool archive descriptor
and scan its lines (an unopenable file raises `OSError`). -/
def extract_field (env : Env) (la_file fieldname : String) : Except DepError (Option String) :=
  match env.fileLines la_file with
  | none => .error (.osError ("could not open " ++ la_file))
  | some lines => extract_field_lines lines fieldname

/-- `PkgConfigDependency.extract_libtool_shlib`: the shared-library name
recorded by a descriptor; on OSX rebuilt from the recorded `libdir` when
present, elsewhere the bare basename of `dlname`. -/
def extract_libtool_shlib (env : Env) (la_file : String) : Except DepError (Option String) :=
  match extract_field env la_file "dlname" with
  | .error e => .error e
  | .ok none => .ok none
  | .ok (some dlname) =>
    if env.isOSX then
      let dlbasename := basename dlname
      match extract_field env la_file "libdir" with
      | .error e => .error e
      | .ok none => .ok (some dlbasename)
      | .ok (some libdir) => .ok (some (pathJoin libdir dlbasename))
    else .ok (some (basename dlname))

/-- One link token of `PkgConfigDependency._set_libs`: a `.la` token is
replaced by its resolved shared library (trying the hidden `.libs`
subdirectory), fatally when resolution fails; the Boolean reports whether
the token was a libtool descriptor.  (A descriptor without a `dlname`
makes the source join a path with `None`, a `TypeError`.) -/
def setLibsEntry (env : Env) (lib : String) : Except DepError (String × Bool) :=
  if strEndsWith lib ".la" then
    match extract_libtool_shlib env lib with
    | .error e => .error e
    | .ok none => .error (.typeError "unsupported operand: path join with None")
    | .ok (some shared_libname) =>
      let shared_lib := pathJoin (dirname lib) shared_libname
      let shared_lib :=
        if !env.pathExists shared_lib then
          pathJoin (pathJoin (dirname lib) ".libs") shared_libname
        else shared_lib
      if !env.pathExists shared_lib then
        .error (.dependencyExc ("Got a libtools specific \"" ++ lib ++
          "\" dependenciesbut we could not compute the actual sharedlibrary path"))
      else .ok (shared_lib, true)
  else .ok (lib, false)

/-- The token loop of `PkgConfigDependency._set_libs`. -/
def setLibsLoop (env : Env) : List String → Except DepError (List String × Bool)
  | [] => .ok ([], false)
  | lib :: rest =>
    match setLibsEntry env lib with
    | .error e => .error e
    | .ok (l, isLt) =>
      match setLibsLoop env rest with
      | .error e => .error e
      | .ok (ls, isLt2) => .ok (l :: ls, isLt || isLt2)

/-- `PkgConfigDependency._set_cargs`: `--cflags` query, fatal on non-zero exit. -/
def set_cargs (env : Env) (pkgbin name : String) : Except DepError (List String) :=
  let (ret, out) := env.callPkgbin pkgbin ["--cflags", name]
  if ret ≠ 0 then
    .error (.dependencyExc ("Could not generate cargs for " ++ name ++ ":\n\n" ++ out))
  else .ok (splitWs out)

/-- `PkgConfigDependency._set_libs`: `--libs` query (plus `--static` when
requested), fatal on non-zero exit, with libtool substitution per token. -/
def set_libs (env : Env) (pkgbin name : String) (staticFlag : Bool) :
    Except DepError (List String × Bool) :=
  let libcmd := [name, "--libs"] ++ (if staticFlag then ["--static"] else [])
  let (ret, out) := env.callPkgbin pkgbin libcmd
  if ret ≠ 0 then
    .error (.dependencyExc ("Could not generate libs for " ++ name ++ ":\n\n" ++ out))
  else setLibsLoop env (splitWs out)

/-- The result record of a pkg-config lookup. -/
structure PkgConfigDep where
  name : String
  is_found : Bool
  modversion : String
  cargs : List String
  libs : List String
  pkgbin : Option String
  want_cross : Bool
  is_libtool : Bool
  methods : List DependencyMethods
deriving DecidableEq, Repr

/-- `kwargs.get("static", False)` with the source's `isinstance` check. -/
def staticValOf (kwargs : Kwargs) : Except DepError Bool :=
  match (kwargsGet kwargs "static").getD (.atom (.aBool false)) with
  | .atom (.aBool b) => .ok b
  | _ => .error (.dependencyExc "Static keyword must be boolean")

/-- The `want_cross` computation shared by the pkg-config and Boost detectors. -/
def wantCrossOf (env : Env) (kwargs : Kwargs) : Bool :=
  match kwargsGet kwargs "native" with
  | some v => if env.isCrossBuild then !v.truthy else env.isCrossBuild
  | none => env.isCrossBuild

/-- The version requirements as the source normalizes them: a string becomes a
singleton list, a non-string non-list raises, and a list must hold strings
(a non-string element would crash inside `version_compare`). -/
def reqStringsOfList : List MVal → Except DepError (List String)
  | [] => .ok []
  | .atom (.aStr s) :: rest => (reqStringsOfList rest).map (fun l => s :: l)
  | _ :: _ => .error (.typeError "expected string version requirement")

/-- See `reqStringsOfList`. -/
def reqStringsOf : MVal → Except DepError (List String)
  | .atom (.aStr s) => .ok [s]
  | .list l => reqStringsOfList l
  | .atom _ => .error (.dependencyExc "Version argument must be string or list.")

/-- The `found_msg` of a failed version comparison, as
`PkgConfigDependency.__init__` builds it: the unmet requirements and, when
any requirement was met, the met ones. -/
def mismatchFoundMsg (type_string name modversion : String)
    (notFound found : List String) : List String :=
  [type_string ++ " dependency", name, "found:"] ++
    ["NO", "found " ++ pyq modversion ++ " but need:",
      joinSep ", " (notFound.map pyq)] ++
    (if !found.isEmpty then
      ["; matched:", joinSep ", " (found.map pyq)]
    else [])

/-- Python truthiness of the stored pkg-config value (`None`/`False`/path). -/
def pkgbinTruthy : Option String → Bool
  | none => false
  | some p => p ≠ ""

/-- The tail of `PkgConfigDependency.__init__` once the dependency is known
to exist with the right version: fetch cargs and libs (each fatal on
failure) and log the accumulated found message unless silent. -/
def pkgFinish (env : Env) (pkgbin name : String) (staticFlag silent : Bool)
    (msg : List String) (d : PkgConfigDep) : (Except DepError PkgConfigDep) × Log :=
  match set_cargs env pkgbin name with
  | .error e => (.error e, [])
  | .ok cargs =>
    match set_libs env pkgbin name staticFlag with
    | .error e => (.error e, [])
    | .ok (libs, isLt) =>
      (.ok { d with cargs := cargs, libs := libs, is_libtool := isLt },
        if silent then [] else [msg])

/-- The body of `PkgConfigDependency.__init__` after the pkg-config binary has
been resolved (the class state is no longer touched from here on): the
falsy-binary early exit, the `--modversion` query, the version-requirement
evaluation with its reporting, then `pkgFinish`. -/
def pkgConfigPostResolve (env : Env) (name : String)
    (required silent staticFlag want_cross : Bool)
    (methods : List DependencyMethods) (version_reqs : Option MVal)
    (pkgbinOpt : Option String) : (Except DepError PkgConfigDep) × Log :=
  let base : PkgConfigDep :=
    { name := name, is_found := false, modversion := "none", cargs := [], libs := []
    , pkgbin := pkgbinOpt, want_cross := want_cross, is_libtool := false
    , methods := methods }
  if !pkgbinTruthy pkgbinOpt then
    if required then (.error (.dependencyExc "Pkg-config not found."), [])
    else (.ok base, [])
  else
  match pkgbinOpt with
  | none => (.ok base, [])
  | some pkgbin =>
  let type_string := if want_cross then "Cross" else "Native"
  let (ret, modv) := env.callPkgbin pkgbin ["--modversion", name]
  if ret ≠ 0 then
    if required then
      (.error (.dependencyExc (type_string ++ " dependency " ++ pyq name ++ " not found")), [])
    else (.ok { base with modversion := modv }, [])
  else
  let found_msg := [type_string ++ " dependency", name, "found:"]
  match version_reqs with
  | none =>
    pkgFinish env pkgbin name staticFlag silent (found_msg ++ ["YES", modv])
      { base with is_found := true, modversion := modv }
  | some vr =>
    match reqStringsOf vr with
    | .error e => (.error e, [])
    | .ok reqs =>
      let vcm := version_compare_many modv reqs
      if !vcm.1 then
        let msg := mismatchFoundMsg type_string name modv vcm.2.1 vcm.2.2
        let log : Log := if silent then [] else [msg]
        if required then
          (.error (.dependencyExc ("Invalid version of dependency, need " ++ pyq name ++
            " " ++ pyReprStrList vcm.2.1 ++ " found " ++ pyq modv ++ ".")), log)
        else (.ok { base with is_found := false, modversion := modv }, log)
      else
        pkgFinish env pkgbin name staticFlag silent (found_msg ++ ["YES", modv])
          { base with is_found := true, modversion := modv }

/-- `PkgConfigDependency.__init__`, over the explicit environment and
memoized class state.  Returns the outcome (record or raised exception),
the possibly updated class state, and the captured `mlog.log` output. -/
def pkgConfigInit (env : Env) (name : String) (kwargs : Kwargs) (st : PkgBinState) :
    (Except DepError PkgConfigDep) × PkgBinState × Log :=
  match dependencyInitMethods [.pkgconfig] kwargs with
  | .error e => (.error e, st, [])
  | .ok methods =>
  let version_reqs := kwargsGet kwargs "version"
  let required := ((kwargsGet kwargs "required").getD (.atom (.aBool true))).truthy
  let silent := ((kwargsGet kwargs "silent").getD (.atom (.aBool false))).truthy
  match staticValOf kwargs with
  | .error e => (.error e, st, [])
  | .ok staticFlag =>
  let want_cross := wantCrossOf env kwargs
  match resolvePkgbin env want_cross required st with
  | (.error e, st') => (.error e, st', [])
  | (.ok pkgbinOpt, st') =>
    let out := pkgConfigPostResolve env name required silent staticFlag want_cross
      methods version_reqs pkgbinOpt
    (out.1, st', out.2)

/-- The uniform dependency record the orchestrator returns: each concrete
detector's capability-method results, computed in the fixed environment. -/
structure DepRecord where
  name : String
  type_name : String
  found : Bool
  compileArgs : List String
  linkArgs : List String
  sources : List String
  needThreads : Bool
  version : Option String
  methods : List DependencyMethods
deriving DecidableEq, Repr

/-- View a pkg-config result as the uniform record. -/
def pkgRecordOf (d : PkgConfigDep) : DepRecord :=
  { name := d.name, type_name := "pkgconfig", found := d.is_found
  , compileArgs := d.cargs, linkArgs := d.libs, sources := []
  , needThreads := false, version := some d.modversion, methods := d.methods }

/-- One directory scan of `ExtraFrameworkDependency.detect`: the first entry
whose bundle-extension-stripped name matches case-insensitively and which is
a directory. -/
def frameworkScanDir (env : Env) (lname p : String) : Option (String × String) :=
  match (env.listdir p).find? (fun d =>
      strToLower ((strSplitOnChar d '.').headD d) = lname && env.isDir (pathJoin p d)) with
  | some d => some (p, d)
  | none => none

/-- The path loop of `ExtraFrameworkDependency.detect`. -/
def frameworkScan (env : Env) (lname : String) : List String → Option (String × String)
  | [] => none
  | p :: ps =>
    match frameworkScanDir env lname p with
    | some r => some r
    | none => frameworkScan env lname ps

/-- `ExtraFrameworkDependency.__init__`: scan the search path (default
`/Library/Frameworks`); compile flags point at the bundle's `Headers`
directory and link flags name the framework, both empty when not found.
(The not-found record's `name` attribute is `None` in the source; the empty
string stands for it here.) -/
def extraFrameworkInit (env : Env) (name : String) (required : Bool)
    (path : Option String) (kwargs : Kwargs) : Except DepError DepRecord :=
  match dependencyInitMethods [.auto] kwargs with
  | .error e => .error e
  | .ok methods =>
    let paths := match path with
      | none => ["/Library/Frameworks"]
      | some p => [p]
    match frameworkScan env (strToLower name) paths with
    | some (p, d) =>
      .ok { name := d, type_name := "extraframeworks", found := true
          , compileArgs := ["-I" ++ pathJoin (pathJoin p d) "Headers"]
          , linkArgs := ["-F" ++ p, "-framework", (strSplitOnChar d '.').headD d]
          , sources := [], needThreads := false, version := some "unknown"
          , methods := methods }
    | none =>
      .ok { name := "", type_name := "extraframeworks", found := false
          , compileArgs := [], linkArgs := [], sources := []
          , needThreads := false, version := some "unknown", methods := methods }

/-- The `modules` normalization of `AppleFrameworks.__init__`: a string is
wrapped, an empty collection (or falsy scalar) raises the at-least-one-module
error, and a truthy non-iterable scalar would raise `TypeError` when the
frameworks are iterated. -/
def appleModules : MVal → Except DepError (List String)
  | .atom (.aStr s) => .ok [s]
  | .list l =>
    if l.isEmpty then
      .error (.dependencyExc "AppleFrameworks dependency requires at least one module.")
    else .ok (MVal.renderL l)
  | .atom a =>
    if a.truthy then .error (.typeError "object is not iterable")
    else .error (.dependencyExc "AppleFrameworks dependency requires at least one module.")

/-- `AppleFrameworks.get_link_args`: a `-framework` pair per module,
unconditionally — the platform check lives only in `found()`. -/
def appleFrameworksLinkArgs (frameworks : List String) : List String :=
  frameworks.flatMap (fun f => ["-framework", f])

/-- `AppleFrameworks.__init__` plus its capability results: `found()` is
platform identity alone, link flags are emitted regardless. -/
def appleFrameworksInit (env : Env) (kwargs : Kwargs) : Except DepError DepRecord :=
  match dependencyInitMethods [.auto] kwargs with
  | .error e => .error e
  | .ok methods =>
    match appleModules ((kwargsGet kwargs "modules").getD (.list [])) with
    | .error e => .error e
    | .ok frameworks =>
      .ok { name := "null", type_name := "appleframeworks", found := env.isOSX
          , compileArgs := [], linkArgs := appleFrameworksLinkArgs frameworks
          , sources := [], needThreads := false, version := some "unknown"
          , methods := methods }

/-- `ThreadDependency`: found on construction, no flags, threads required. -/
def threadDependencyInit (env : Env) : DepRecord :=
  { name := "threads", type_name := "threads", found := true
  , compileArgs := [], linkArgs := [], sources := [], needThreads := true
  , version := some "unknown", methods := [.auto] }

/-- `BoostDependency.name2lib`: source-name to library-name mapping. -/
def name2libGet (m : String) : String :=
  if m = "test" then "unit_test_framework" else m

/-- Last-write-wins lookup in a Python-dict-like association list. -/
def lookupLast (l : List (String × String)) (k : String) : Option String :=
  match List.find? (fun p => p.1 = k) l.reverse with
  | some p => some p.2
  | none => none

/-- `BoostDependency.detect_win_root`: first `c:\local\boost_*` glob hit, else `C:\`. -/
def boostDetectWinRoot (env : Env) : String :=
  match env.glob "c:\\local\\boost_*" with
  | f :: _ => f
  | [] => "C:\\"

/-- The version scan of `BoostDependency.detect_version`: first
`#define ... BOOST_LIB_VERSION` line, last token dequoted, `_` → `.`. -/
def boostVersionScan : List String → Option String
  | [] => none
  | line :: rest =>
    if strStartsWith line "#define" && containsSub "BOOST_LIB_VERSION" line.data then
      let ver := (splitWs line).getLastD ""
      some (replaceChar (strDropRight (strDrop ver 1) 1) '_' '.')
    else boostVersionScan rest

/-- `BoostDependency.detect_version`: read `version.hpp` under the include
subdirectory; an unopenable file yields no version. -/
def boostDetectVersion (env : Env) (boost_inc_subdir : String) : Option String :=
  match env.fileLines (pathJoin boost_inc_subdir "version.hpp") with
  | none => none
  | some lines => boostVersionScan lines

/-- `BoostDependency.detect_src_modules`: the subdirectory entries of the
include namespace. -/
def boostSrcModules (env : Env) (boost_inc_subdir : String) : List String :=
  (env.listdir boost_inc_subdir).filter (fun e => env.isDir (pathJoin boost_inc_subdir e))

/-- The filename loop of `BoostDependency.detect_lib_modules_win`:
`boost_<mod>-...` decorated filenames keyed by module name (a glob hit
without `_` would raise `IndexError`). -/
def boostWinEntries : List String → Except DepError (List (String × String))
  | [] => .ok []
  | entry :: rest =>
    let fname := basename entry
    match (splitOnce fname '_').2 with
    | none => .error (.indexError "list index out of range")
    | some base =>
      let modname := (splitOnce base '-').1
      (boostWinEntries rest).map (fun l => (modname, fname) :: l)

/-- `BoostDependency.detect_lib_modules_win`: guess the lib directory from the
CPU family, glob the decorated `-gd-` library names.  Returns the libdir (the
empty string when bailing out) and the name→filename map.  (The dead
`boost_root is None` case bails like the empty-glob case; on Windows the
constructor always sets a root.) -/
def boostDetectLibWin (env : Env) (boost_root : Option String) :
    Except DepError (String × List (String × String)) :=
  let arch := env.detectCpuFamily
  let gl : Option String :=
    if arch = "x86" then some "lib32*"
    else if arch = "x86_64" then some "lib64*"
    else none
  let libdirList := match gl, boost_root with
    | some g, some br => env.glob (pathJoin br g)
    | _, _ => []
  match libdirList with
  | [] => .ok ("", [])
  | libdir :: _ =>
    match boostWinEntries (env.glob (pathJoin libdir "boost_*-gd-*.lib")) with
    | .error e => .error e
    | .ok mt => .ok (libdir, mt)

/-- The module name a Unix-style boost library filename denotes:
`lib.split(".")[0].split("_", 1)[-1]`. -/
def boostNixModName (entry : String) : String :=
  splitOnceLast ((strSplitOnChar (basename entry) '.').headD (basename entry)) '_'

/-- `BoostDependency.detect_lib_modules_nix`: glob the platform shared-library
pattern over the library directories; `-mt.so` entries populate the threaded
map (with the dict's `True` placeholder), the rest the plain one. -/
def boostDetectLibNix (env : Env) (boost_root : Option String) :
    List String × List (String × String) :=
  let libsuffix := if env.isOSX then "dylib" else "so"
  let globber := "libboost_*." ++ libsuffix
  let libdirs := match env.osEnviron "BOOST_LIBRARYDIR", boost_root with
    | some d, _ => [d]
    | none, none => env.libraryDirs
    | none, some br => [pathJoin br "lib"]
  let entries := libdirs.flatMap (fun d => env.glob (pathJoin d globber))
  ((entries.filter (fun e => !strEndsWith e "-mt.so")).map boostNixModName,
   (entries.filter (fun e => strEndsWith e "-mt.so")).map (fun e => (boostNixModName e, "True")))

/-- `BoostDependency.get_requested`: a string is wrapped in a list, every list
element must itself be a string, and a non-iterable scalar would raise. -/
def boostModulesCheck : List MVal → Except DepError (List String)
  | [] => .ok []
  | .atom (.aStr s) :: rest => (boostModulesCheck rest).map (fun l => s :: l)
  | _ :: _ => .error (.dependencyExc "Boost module argument is not a string.")

/-- See `boostModulesCheck`. -/
def boostGetRequested : MVal → Except DepError (List String)
  | .atom (.aStr s) => .ok [s]
  | .list l => boostModulesCheck l
  | .atom _ => .error (.typeError "object is not iterable")

/-- `BoostDependency.validate_requested`: every requested module must be among
the discovered source modules, else fail naming the first missing one. -/
def boostValidate (requested src_modules : List String) : Except DepError Unit :=
  match requested.find? (fun m => !src_modules.contains m) with
  | some m => .error (.dependencyExc ("Requested Boost module \"" ++ m ++ "\" not found."))
  | none => .ok ()

/-- `BoostDependency.get_compile_args`: an include flag built by the ambient
compiler, skipped for the default include directories. -/
def boostCompileArgs (env : Env) (boost_root : Option String) (incdir : String) :
    List String :=
  let include_dir := match boost_root with
    | some br => if env.isWindows then br else pathJoin br "include"
    | none => incdir
  if include_dir ≠ "/usr/include" && include_dir ≠ "/usr/local/include" then
    [strJoin (env.getIncludeArgs include_dir true)]
  else []

/-- `BoostDependency.get_win_link_args`: the libdir flag plus each requested
module's decorated filename when present. -/
def boostWinLinkArgs (boost_root : Option String) (libdir : String)
    (requested : List String) (lib_modules_mt : List (String × String)) : List String :=
  (match boost_root with
   | some br => if br ≠ "" then ["-L" ++ libdir] else []
   | none => []) ++
  requested.flatMap (fun m0 =>
    match lookupLast lib_modules_mt (name2libGet m0) with
    | some fname => [fname]
    | none => [])

/-- `BoostDependency.get_link_args` (non-Windows): prefer the ambient
compiler's own search, fall back to a manual `-lboost_<mod>` (threaded
variant when only that exists), special-casing the testing framework's
monitor library. -/
def boostNixLinkArgs (env : Env) (boost_root : Option String)
    (requested lib_modules : List String)
    (lib_modules_mt : List (String × String)) : List String :=
  let libdirFlag := match env.osEnviron "BOOST_LIBRARYDIR" with
    | some d => ["-L" ++ d]
    | none => []
  (match boost_root with
   | some br => if br ≠ "" then ["-L" ++ pathJoin br "lib"] else libdirFlag
   | none => libdirFlag) ++
  requested.flatMap (fun m0 =>
    let module := name2libGet m0
    let libname := "boost_" ++ module
    match env.findLibrary libname with
    | some detect =>
      detect ++
        (if module = "unit_testing_framework" then
          (env.findLibrary "boost_test_exec_monitor").getD []
        else [])
    | none =>
      if lib_modules.contains module || (lib_modules_mt.map Prod.fst).contains module then
        ["-l" ++ libname] ++
          (if module = "unit_testing_framework" then ["-lboost_test_exec_monitor"] else [])
      else if (lib_modules_mt.map Prod.fst).contains (module ++ "-mt") then
        ["-lboost_" ++ module ++ "-mt"] ++
          (if module = "unit_testing_framework" then ["-lboost_test_exec_monitor-mt"] else [])
      else [])

/-- The root/include-directory resolution of `BoostDependency.__init__`
(after the `BOOST_ROOT` absoluteness check): cross-compiling without an
include override fails; Windows guesses a root; elsewhere the override or
`/usr/include` is used. -/
def boostIncdir (env : Env) (want_cross : Bool) (rootOpt : Option String) :
    Except DepError (Option String × String) :=
  match rootOpt with
  | some br => .ok (some br, pathJoin br "include")
  | none =>
    if want_cross && (env.osEnviron "BOOST_INCLUDEDIR").isNone then
      .error (.dependencyExc "BOOST_ROOT or BOOST_INCLUDEDIR is needed while cross-compiling")
    else if env.isWindows then
      let br := boostDetectWinRoot env
      .ok (some br, br)
    else
      match env.osEnviron "BOOST_INCLUDEDIR" with
      | some d => .ok (none, d)
      | none => .ok (none, "/usr/include")

/-- `BoostDependency.__init__` plus its capability results. -/
def boostInit (env : Env) (kwargs : Kwargs) : Except DepError DepRecord :=
  match dependencyInitMethods [.auto] kwargs with
  | .error e => .error e
  | .ok methods =>
  let want_cross := wantCrossOf env kwargs
  match (match env.osEnviron "BOOST_ROOT" with
         | some br =>
           if !isAbs br then
             Except.error (DepError.dependencyExc "BOOST_ROOT must be an absolute path.")
           else Except.ok (some br)
         | none => Except.ok none) with
  | .error e => .error e
  | .ok rootOpt =>
  match boostIncdir env want_cross rootOpt with
  | .error e => .error e
  | .ok (boost_root, incdir) =>
  let boost_inc_subdir := pathJoin incdir "boost"
  let version := boostDetectVersion env boost_inc_subdir
  match boostGetRequested ((kwargsGet kwargs "modules").getD (.list [])) with
  | .error e => .error e
  | .ok requested =>
  match (match version with
         | none => Except.ok (([] : List String), ([] : List String),
             ([] : List (String × String)), "")
         | some _ =>
           let src := boostSrcModules env boost_inc_subdir
           match (if env.isWindows then
                    (boostDetectLibWin env boost_root).map
                      (fun (p : String × List (String × String)) =>
                        (([] : List String), p.2, p.1))
                  else
                    let p := boostDetectLibNix env boost_root
                    Except.ok (p.1, p.2, "")) with
           | .error e => Except.error e
           | .ok (libm, mt, libdir) =>
             match boostValidate requested src with
             | .error e => Except.error e
             | .ok _ => Except.ok (src, libm, mt, libdir)) with
  | .error e => .error e
  | .ok (_, libm, mt, libdir) =>
  if !env.compilersHasCpp then
    .error (.dependencyExc "Tried to use Boost but a C++ compiler is not defined.")
  else
    .ok { name := "boost", type_name := "boost", found := version.isSome
        , compileArgs := boostCompileArgs env boost_root incdir
        , linkArgs :=
            if env.isWindows then boostWinLinkArgs boost_root libdir requested mt
            else boostNixLinkArgs env boost_root requested libm mt
        , sources := [], needThreads := requested.contains "thread"
        , version := version, methods := methods }

/-- `Python3Dependency.get_methods`: pkg-config everywhere, plus the one
platform-specific fallback. -/
def python3GetMethods (env : Env) : List DependencyMethods :=
  if env.isWindows then [.pkgconfig, .sysconfig]
  else if env.isOSX then [.pkgconfig, .extraframework]
  else [.pkgconfig]

/-- `Python3Dependency._find_libpy3_windows`: require a known CPU family
matching the interpreter's platform tag, then build flags from `sysconfig`
paths.  `none` covers both mismatch returns. -/
def findLibpy3Windows (env : Env) : Option (List String × List String × String) :=
  let pyarch := env.pyPlatform
  let archS : Option String :=
    if env.detectCpuFamily = "x86" then some "32"
    else if env.detectCpuFamily = "x86_64" then some "64"
    else none
  match archS with
  | none => none
  | some arch =>
    if arch ≠ strTakeRight pyarch 2 then none
    else
      let inc := env.pyPathInclude
      let platinc := env.pyPathPlatinclude
      some (["-I" ++ inc] ++ (if inc ≠ platinc then ["-I" ++ platinc] else []),
        ["-L" ++ env.pyConfBase ++ "/libs", "-lpython" ++ env.pyConfVernum],
        env.pyConfVersionShort)

/-- The not-found `Python3Dependency` record (its flag attributes are never
set in the source; the empty lists stand for the absent attributes). -/
def python3NotFound (methods : List DependencyMethods) : DepRecord :=
  { name := "python3", type_name := "python3", found := false
  , compileArgs := [], linkArgs := [], sources := [], needThreads := false
  , version := some "3", methods := methods }

/-- `Python3Dependency.__init__`: try pkg-config (errors suppressed, class
state still updated), then the platform fallback (`sysconfig` on Windows,
the unversioned `python` framework on OSX). -/
def python3Init (env : Env) (kwargs : Kwargs) (st : PkgBinState) :
    (Except DepError DepRecord) × PkgBinState :=
  match dependencyInitMethods (python3GetMethods env) kwargs with
  | .error e => (.error e, st)
  | .ok methods =>
    let viaPkg : Option (List String × List String × String) × PkgBinState :=
      if methods.contains .pkgconfig then
        match pkgConfigInit env "python3" kwargs st with
        | (.ok d, st', _) =>
          (if d.is_found then some (d.cargs, d.libs, d.modversion) else none, st')
        | (.error _, st', _) => (none, st')
      else (none, st)
    match viaPkg with
    | (some (cargs, libs, ver), st') =>
      (.ok { name := "python3", type_name := "python3", found := true
           , compileArgs := cargs, linkArgs := libs, sources := []
           , needThreads := false, version := some ver, methods := methods }, st')
    | (none, st') =>
      if env.isWindows && methods.contains .sysconfig then
        match findLibpy3Windows env with
        | some (cargs, libs, ver) =>
          (.ok { name := "python3", type_name := "python3", found := true
               , compileArgs := cargs, linkArgs := libs, sources := []
               , needThreads := false, version := some ver, methods := methods }, st')
        | none => (.ok (python3NotFound methods), st')
      else if env.isOSX && methods.contains .extraframework then
        match extraFrameworkInit env "python" false none kwargs with
        | .error e => (.error e, st')
        | .ok fw =>
          if fw.found then
            (.ok { name := "python3", type_name := "python3", found := true
                 , compileArgs := fw.compileArgs, linkArgs := fw.linkArgs, sources := []
                 , needThreads := false, version := some "3", methods := methods }, st')
          else (.ok (python3NotFound methods), st')
      else (.ok (python3NotFound methods), st')

/-- One component of the identity key: a raw scalar or a frozen set of the
flattened atoms of a list value. -/
inductive IdentPart where
  | scalar (a : MAtom)
  | fset (s : Finset MAtom)
deriving DecidableEq

/-- `identPartOf v` is `frozenset(flatten(v))` for a list and `v` itself
otherwise, exactly the conversion `get_dep_identifier` applies. -/
def identPartOf : MVal → IdentPart
  | .atom a => .scalar a
  | .list l => .fset (flattenL l).toFinset

/-- The identity/caching key: name, converted version value, cross flag, and
the remaining (key, converted value) pairs in `kwargs` iteration order —
a faithful image of the flat Python tuple. -/
structure DepIdent where
  name : String
  ver : IdentPart
  wantCross : Bool
  rest : List (String × IdentPart)
deriving DecidableEq

/-- The lifecycle keys `get_dep_identifier` skips in its loop. -/
def identSkippedKey (k : String) : Bool :=
  k = "version" ∨ k = "native" ∨ k = "required" ∨ k = "fallback"

/-- `get_dep_identifier`. -/
def get_dep_identifier (name : String) (kwargs : Kwargs) (want_cross : Bool) : DepIdent :=
  { name := name
  , ver := identPartOf ((kwargsGet kwargs "version").getD (.list []))
  , wantCross := want_cross
  , rest := kwargs.filterMap (fun p =>
      if identSkippedKey p.1 then none else some (p.1, identPartOf p.2)) }

/-- The registered name-specific detectors (`packages`). -/
def packagesNames : List String := ["boost", "appleframeworks", "threads", "python3"]

/-- Dispatch to a registered detector's constructor. -/
def packagesInit (lname : String) (env : Env) (kwargs : Kwargs) (st : PkgBinState) :
    (Except DepError DepRecord) × PkgBinState :=
  if lname = "boost" then (boostInit env kwargs, st)
  else if lname = "appleframeworks" then (appleFrameworksInit env kwargs, st)
  else if lname = "threads" then (.ok (threadDependencyInit env), st)
  else python3Init env kwargs st

/-- `find_external_dependency`: validate the lifecycle keywords, dispatch to a
registered detector, otherwise probe pkg-config and (on OSX) fall back to the
filesystem-framework detector; a swallowed pkg-config exception is re-raised
when no fallback applies. -/
def findExternalDependency (env : Env) (name : String) (kwargs : Kwargs)
    (st : PkgBinState) : (Except DepError DepRecord) × PkgBinState × Log :=
  match (kwargsGet kwargs "required").getD (.atom (.aBool true)) with
  | .atom (.aBool required) =>
    match (kwargsGet kwargs "method").getD (.atom (.aStr "")) with
    | .atom (.aStr _) =>
      let lname := strToLower name
      if packagesNames.contains lname then
        match packagesInit lname env kwargs st with
        | (.error e, st') => (.error e, st', [])
        | (.ok dep, st') =>
          if required && !dep.found then
            (.error (.dependencyExc ("Dependency \"" ++ name ++ "\" not found")), st', [])
          else (.ok dep, st', [])
      else
        match pkgConfigInit env name kwargs st with
        | (.ok pkgdep, st', log) =>
          if pkgdep.is_found then (.ok (pkgRecordOf pkgdep), st', log)
          else if env.isOSX then
            match extraFrameworkInit env name required none kwargs with
            | .error e2 => (.error e2, st', log)
            | .ok fwdep =>
              if required && !fwdep.found then
                (.error (.dependencyExc ("Dependency " ++ pyq name ++
                  " not found, tried Extra Frameworks and Pkg-Config:\n\nNone")), st', log)
              else (.ok fwdep, st', log)
          else (.ok (pkgRecordOf pkgdep), st', log ++ [["Dependency", name, "found:", "NO"]])
        | (.error e, st', log) =>
          if env.isOSX then
            match extraFrameworkInit env name required none kwargs with
            | .error e2 => (.error e2, st', log)
            | .ok fwdep =>
              if required && !fwdep.found then
                (.error (.dependencyExc ("Dependency " ++ pyq name ++
                  " not found, tried Extra Frameworks and Pkg-Config:\n\n" ++ e.message)),
                  st', log)
              else (.ok fwdep, st', log)
          else (.error e, st', log)
    | _ => (.error (.dependencyExc "Keyword \"method\" must be a string."), st, [])
  | _ => (.error (.dependencyExc "Keyword \"required\" must be a boolean."), st, [])

/-- Spec-side equivalence of two keyword-argument values: equal atoms, or
lists holding the same elements in a possibly different order.  Used to state
the ordering-insensitivity of the identity key. -/
def MValPermEq : MVal → MVal → Prop
  | .atom a, .atom b => a = b
  | .list l1, .list l2 => l1.Perm l2
  | _, _ => False

/-- The vector an explicit override is stored as. -/
def cmdArgList : CmdArg → List (Option String)
  | .one s => [some s]
  | .many l => l.map some

/-- The source conditions under which a (non-required) pkg-config lookup's
outcome is "not found": the tool is absent, the `--modversion` query fails,
or the supplied requirements are not all met by the queried version. -/
def pkgNotFoundCond (env : Env) (name : String) (kwargs : Kwargs) (st : PkgBinState) : Prop :=
  match resolvePkgbin env (wantCrossOf env kwargs) false st with
  | (.error _, _) => False
  | (.ok pb, _) =>
    pkgbinTruthy pb = false ∨
    (∃ p, pb = some p ∧
      ((env.callPkgbin p ["--modversion", name]).1 ≠ 0 ∨
        (∃ vr reqs, kwargsGet kwargs "version" = some vr ∧ reqStringsOf vr = .ok reqs ∧
          (version_compare_many (env.callPkgbin p ["--modversion", name]).2 reqs).1 = false)))

/-- Decidable equality of outcomes, for evaluating lookups on concrete inputs. -/
instance {ε α : Type} [DecidableEq ε] [DecidableEq α] : DecidableEq (Except ε α) :=
  fun a b =>
    match a, b with
    | .ok x, .ok y =>
      match decEq x y with
      | isTrue h => isTrue (by rw [h])
      | isFalse h => isFalse (by intro hc; cases hc; exact h rfl)
    | .error x, .error y =>
      match decEq x y with
      | isTrue h => isTrue (by rw [h])
      | isFalse h => isFalse (by intro hc; cases hc; exact h rfl)
    | .ok _, .error _ => isFalse (by intro hc; cases hc)
    | .error _, .ok _ => isFalse (by intro hc; cases hc)

/-- A neutral environment for concrete evaluations: non-Windows, non-OSX,
native build, empty filesystem, no tools found. -/
def baseEnv : Env :=
  { isWindows := false, isOSX := false, isCrossBuild := false
  , pathExists := fun _ => false
  , accessX := fun _ => false
  , isDir := fun _ => false
  , listdir := fun _ => []
  , fileFirstLine := fun _ => none
  , fileLines := fun _ => none
  , whichResult := fun _ => none
  , sysExecutable := "/usr/bin/python3"
  , osEnviron := fun _ => none
  , popenVersionRet := fun _ => none
  , callPkgbin := fun _ _ => (1, "")
  , crossHasPkgconfig := false, crossPkgconfigName := ""
  , glob := fun _ => [], libraryDirs := []
  , compilersHasCpp := true, detectCpuFamily := "x86_64"
  , findLibrary := fun _ => none, getIncludeArgs := fun _ _ => []
  , pyPlatform := "", pyPathInclude := "", pyPathPlatinclude := ""
  , pyConfBase := "", pyConfVernum := "", pyConfVersionShort := "" }

/-- A Windows environment holding the `/tmp/foo` shebang script of the
locator scenario. -/
def envShebang : Env := { baseEnv with
  isWindows := true,
  pathExists := fun p => p = "/tmp/foo",
  fileFirstLine := fun p => if p = "/tmp/foo" then some "#!/usr/bin/env bash" else none }

/-- A cross build whose cross file names `i686-pkg-config` while the native
`pkg-config` is separately available; pkg-config queries succeed. -/
def envCrossPkg : Env := { baseEnv with
  isCrossBuild := true,
  crossHasPkgconfig := true, crossPkgconfigName := "i686-pkg-config",
  whichResult := fun n =>
    if n = "i686-pkg-config" then some "/usr/bin/i686-pkg-config"
    else if n = "pkg-config" then some "/usr/bin/pkg-config" else none,
  popenVersionRet := fun _ => some 0,
  callPkgbin := fun _ args => if args.headD "" = "--modversion" then (0, "1.0") else (0, "") }

/-- A native environment whose pkg-config reports version `2.1.0` for every
module. -/
def envPkgVer : Env := { baseEnv with
  whichResult := fun n => if n = "pkg-config" then some "/usr/bin/pkg-config" else none,
  popenVersionRet := fun _ => some 0,
  callPkgbin := fun _ args => if args.headD "" = "--modversion" then (0, "2.1.0") else (0, "") }

/-! Helper lemmas. -/

theorem str_append_empty (s : String) : s ++ "" = s := by
  cases s with
  | mk l =>
    show String.mk (l ++ []) = String.mk l
    rw [List.append_nil]

theorem str_empty_append (s : String) : "" ++ s = s := rfl

theorem format_list_cons₂ (s x : String) (xs : List String) :
    format_list (s :: x :: xs) = s ++ ", " ++ format_list (x :: xs) := rfl

theorem format_list_mem_infix {a : String} {l : List String} (h : a ∈ l) :
    ∃ pre post, format_list l = pre ++ a ++ post := by
  induction l with
  | nil => cases h
  | cons s rest ih =>
    rcases List.mem_cons.mp h with h | h
    · subst h
      cases rest with
      | nil =>
        refine ⟨"", "", ?_⟩
        rw [str_empty_append, str_append_empty]
        rfl
      | cons x xs =>
        refine ⟨"", ", " ++ format_list (x :: xs), ?_⟩
        rw [format_list_cons₂]
        simp only [String.append_assoc]
        rw [str_empty_append]
    · obtain ⟨pre, post, hp⟩ := ih h
      cases rest with
      | nil => cases h
      | cons x xs =>
        refine ⟨s ++ ", " ++ pre, post, ?_⟩
        rw [format_list_cons₂, hp]
        simp only [String.append_assoc]

theorem strToMethod_value (m : DependencyMethods) : strToMethod m.value = some m := by
  cases m <;> rfl

/-- C7: an explicit method outside the detector's applicable set raises the
`MesonException` naming the allowed methods (each allowed method's value
occurs in the rendered message); an applicable explicit method narrows the
method list to itself; `auto` expands to the detector's full set. -/
theorem C7_method_selection (g : List DependencyMethods) (m : DependencyMethods)
    (kwargs : Kwargs)
    (hm : kwargsGet kwargs "method" = some (.atom (.aStr m.value))) :
    (m ≠ .auto → m ∉ g →
      dependencyInitMethods g kwargs = .error (.unsupportedMethod m g) ∧
      ∀ a ∈ g, ∃ pre post,
        (DepError.unsupportedMethod m g).message = pre ++ a.value ++ post) ∧
    (m ≠ .auto → m ∈ g → dependencyInitMethods g kwargs = .ok [m]) ∧
    (m = .auto → dependencyInitMethods g kwargs = .ok g) := by
  have hdm : dependencyInitMethods g kwargs = setMethods g m := by
    rw [dependencyInitMethods, hm]
    show (match parseMethodVal (.atom (.aStr m.value)) with
      | .error e => .error e
      | .ok m => setMethods g m) = setMethods g m
    rw [parseMethodVal, strToMethod_value]
  refine ⟨fun hna hnm => ⟨?_, ?_⟩, fun hna hmem => ?_, fun hauto => ?_⟩
  · rw [hdm, setMethods, if_neg hna, if_neg hnm]
  · intro a ha
    have hmem : a.value ∈ (DependencyMethods.auto :: g).map DependencyMethods.value :=
      List.mem_map_of_mem _ (List.mem_cons_of_mem _ ha)
    obtain ⟨pre, post, hp⟩ := format_list_mem_infix hmem
    refine ⟨("Unsupported detection method: " ++ m.value ++ ", allowed methods are ") ++ pre,
      post, ?_⟩
    rw [DepError.message, hp]
    simp only [String.append_assoc]
  · rw [hdm, setMethods, if_neg hna, if_pos hmem]
  · rw [hdm, hauto, setMethods, if_pos rfl]

/-- Witness for C7 at `get_methods() = [pkg-config]` with the explicit
methods `sysconfig` (rejected), `pkg-config` (narrowed) and `auto`
(expanded). -/
theorem C7_method_selection_witness :
    ((DependencyMethods.sysconfig ≠ .auto → DependencyMethods.sysconfig ∉ [DependencyMethods.pkgconfig] →
      dependencyInitMethods [.pkgconfig] [("method", .atom (.aStr "sysconfig"))] =
        .error (.unsupportedMethod .sysconfig [.pkgconfig]) ∧
      ∀ a ∈ [DependencyMethods.pkgconfig], ∃ pre post,
        (DepError.unsupportedMethod .sysconfig [.pkgconfig]).message = pre ++ a.value ++ post) ∧
    (DependencyMethods.sysconfig ≠ .auto → DependencyMethods.sysconfig ∈ [DependencyMethods.pkgconfig] →
      dependencyInitMethods [.pkgconfig] [("method", .atom (.aStr "sysconfig"))] = .ok [.sysconfig]) ∧
    (DependencyMethods.sysconfig = .auto →
      dependencyInitMethods [.pkgconfig] [("method", .atom (.aStr "sysconfig"))] = .ok [.pkgconfig])) ∧
    (DependencyMethods.pkgconfig ≠ .auto → DependencyMethods.pkgconfig ∈ [DependencyMethods.pkgconfig] →
      dependencyInitMethods [.pkgconfig] [("method", .atom (.aStr "pkg-config"))] = .ok [.pkgconfig]) ∧
    (DependencyMethods.auto = .auto →
      dependencyInitMethods [.pkgconfig] [("method", .atom (.aStr "auto"))] = .ok [.pkgconfig]) :=
  ⟨C7_method_selection [.pkgconfig] .sysconfig [("method", .atom (.aStr "sysconfig"))] rfl,
   (C7_method_selection [.pkgconfig] .pkgconfig [("method", .atom (.aStr "pkg-config"))] rfl).2.1,
   (C7_method_selection [.pkgconfig] .auto [("method", .atom (.aStr "auto"))] rfl).2.2⟩

/-- C9: a `threads` lookup always succeeds with an always-found record
carrying no compile or link flags and signalling that threads are needed,
whatever the environment and (well-typed lifecycle) options. -/
theorem C9_thread_dependency (env : Env) (kwargs : Kwargs) (st : PkgBinState)
    (hreq : ∃ b, (kwargsGet kwargs "required").getD (.atom (.aBool true)) = .atom (.aBool b))
    (hmeth : ∃ s, (kwargsGet kwargs "method").getD (.atom (.aStr "")) = .atom (.aStr s)) :
    (findExternalDependency env "threads" kwargs st).1 = .ok (threadDependencyInit env) ∧
    (threadDependencyInit env).found = true ∧
    (threadDependencyInit env).compileArgs = [] ∧
    (threadDependencyInit env).linkArgs = [] ∧
    (threadDependencyInit env).needThreads = true := by
  obtain ⟨b, hb⟩ := hreq
  obtain ⟨s, hs⟩ := hmeth
  refine ⟨?_, rfl, rfl, rfl, rfl⟩
  have hc : packagesNames.contains (strToLower "threads") = true := rfl
  have hpi : packagesInit (strToLower "threads") env kwargs st =
      (.ok (threadDependencyInit env), st) := rfl
  simp only [findExternalDependency, hb, hs, hc, if_true, hpi]
  simp [threadDependencyInit]

/-- Witness for C9 in the neutral environment with empty options. -/
theorem C9_thread_dependency_witness :
    (findExternalDependency baseEnv "threads" [] .unset).1 =
      .ok (threadDependencyInit baseEnv) ∧
    (threadDependencyInit baseEnv).found = true ∧
    (threadDependencyInit baseEnv).compileArgs = [] ∧
    (threadDependencyInit baseEnv).linkArgs = [] ∧
    (threadDependencyInit baseEnv).needThreads = true :=
  C9_thread_dependency baseEnv [] .unset ⟨true, rfl⟩ ⟨"", rfl⟩

/-- C3: on the shebang-emulation platform (Windows), a directory search for
`foo` that hits the non-executable script `/tmp/foo` whose first line is
`#!/usr/bin/env bash` resolves to `["bash", "/tmp/foo"]` — the `env`
prefix is rewritten to the bare interpreter.  (Extensionless files are never
directly executable on this platform, so non-executability is implied.) -/
theorem C3_shebang_resolution (env : Env)
    (hwin : env.isWindows = true)
    (hex : env.pathExists "/tmp/foo" = true)
    (hline : env.fileFirstLine "/tmp/foo" = some "#!/usr/bin/env bash") :
    (externalProgramMk env "foo" none (some "/tmp")).command =
      [some "bash", some "/tmp/foo"] := by
  have hj : pathJoin "/tmp" "foo" = "/tmp/foo" := rfl
  have hexe : is_executable env "/tmp/foo" = false := by
    simp only [is_executable, hwin, eq_self_iff_true, if_true]
    decide
  have hsb : shebang_to_cmd env "/tmp/foo" = some ["bash", "/tmp/foo"] := by
    unfold shebang_to_cmd
    rw [hline]
    simp only [hwin]
    rfl
  simp only [externalProgramMk, program_search, search_dir, hj, hex, hexe, hsb]
  simp

/-- Witness for C3 in a concrete Windows environment holding the script. -/
theorem C3_shebang_resolution_witness :
    (externalProgramMk envShebang "foo" none (some "/tmp")).command =
      [some "bash", some "/tmp/foo"] :=
  C3_shebang_resolution envShebang rfl rfl rfl

/-- C10 counterexample: the override `[""]` has an empty first token, yet the
resulting program reports `found() = true` (`command[0] is not None` holds
for the empty string), so "found iff the first token is non-empty" fails. -/
theorem C10_counterexample :
    (externalProgramMk baseEnv "x" (some (.many [""])) none).command = [some ""] ∧
    (externalProgramMk baseEnv "x" (some (.many [""])) none).foundB = true :=
  ⟨rfl, rfl⟩

/-- C10 as amended: an explicit override is stored verbatim (no search runs),
and for every non-empty override `found()` is true — the first element is a
string, never the absent marker, even when it is the empty string. -/
theorem C10_override_verbatim (env : Env) (name : String) (cmd : CmdArg)
    (sd : Option String) :
    (externalProgramMk env name (some cmd) sd).command = cmdArgList cmd ∧
    (cmdArgList cmd ≠ [] → (externalProgramMk env name (some cmd) sd).foundB = true) := by
  cases cmd with
  | one s => exact ⟨rfl, fun _ => rfl⟩
  | many l =>
    refine ⟨rfl, fun h => ?_⟩
    cases l with
    | nil => simp [cmdArgList] at h
    | cons a as => rfl

/-- Witness for C10's amended statement on a concrete two-token override. -/
theorem C10_override_verbatim_witness :
    (externalProgramMk baseEnv "prog" (some (.many ["/bin/tool", "-x"])) none).command =
      cmdArgList (.many ["/bin/tool", "-x"]) ∧
    (externalProgramMk baseEnv "prog" (some (.many ["/bin/tool", "-x"])) none).foundB = true :=
  ⟨(C10_override_verbatim baseEnv "prog" (.many ["/bin/tool", "-x"]) none).1,
   (C10_override_verbatim baseEnv "prog" (.many ["/bin/tool", "-x"]) none).2 (by decide)⟩

theorem flattenL_eq_flatMap (l : List MVal) : flattenL l = l.flatMap flattenV := by
  induction l with
  | nil => rfl
  | cons v rest ih =>
    show flattenV v ++ flattenL rest = _
    rw [List.flatMap_cons, ih]

theorem flattenL_perm {l1 l2 : List MVal} (h : l1.Perm l2) :
    (flattenL l1).Perm (flattenL l2) := by
  rw [flattenL_eq_flatMap, flattenL_eq_flatMap]
  exact h.flatMap_right flattenV

theorem identPartOf_congr : ∀ {v w : MVal}, MValPermEq v w → identPartOf v = identPartOf w
  | .atom a, .atom b, h => by
    have ha : a = b := h
    rw [ha]
  | .list l1, .list l2, h => by
    have hp : l1.Perm l2 := h
    show IdentPart.fset (flattenL l1).toFinset = IdentPart.fset (flattenL l2).toFinset
    rw [List.toFinset_eq_of_perm _ _ (flattenL_perm hp)]
  | .atom _, .list _, h => absurd h (by simp [MValPermEq])
  | .list _, .atom _, h => absurd h (by simp [MValPermEq])

/-- The entry-wise option relation used for C4's amended statement. -/
theorem kwargsGet_forall₂ {k1 k2 : Kwargs} (key : String)
    (h : List.Forall₂ (fun p q => p.1 = q.1 ∧ MValPermEq p.2 q.2) k1 k2) :
    (kwargsGet k1 key = none ∧ kwargsGet k2 key = none) ∨
    (∃ v w, kwargsGet k1 key = some v ∧ kwargsGet k2 key = some w ∧ MValPermEq v w) := by
  induction h with
  | nil => exact .inl ⟨rfl, rfl⟩
  | @cons p q k1' k2' hpq hrest ih =>
    obtain ⟨hk, hv⟩ := hpq
    by_cases hkey : p.1 = key
    · refine .inr ⟨p.2, q.2, ?_, ?_, hv⟩
      · simp [kwargsGet, List.find?, hkey]
      · simp [kwargsGet, List.find?, hk ▸ hkey]
    · have hqkey : ¬ q.1 = key := hk ▸ hkey
      have e1 : kwargsGet (p :: k1') key = kwargsGet k1' key := by
        simp [kwargsGet, List.find?, hkey]
      have e2 : kwargsGet (q :: k2') key = kwargsGet k2' key := by
        simp [kwargsGet, List.find?, hqkey]
      rw [e1, e2]
      exact ih

theorem identRest_forall₂ {k1 k2 : Kwargs}
    (h : List.Forall₂ (fun p q => p.1 = q.1 ∧ MValPermEq p.2 q.2) k1 k2) :
    k1.filterMap (fun p => if identSkippedKey p.1 then none else some (p.1, identPartOf p.2)) =
    k2.filterMap (fun p => if identSkippedKey p.1 then none else some (p.1, identPartOf p.2)) := by
  induction h with
  | nil => rfl
  | @cons p q k1' k2' hpq hrest ih =>
    obtain ⟨hk, hv⟩ := hpq
    simp only [List.filterMap_cons, hk, identPartOf_congr hv, ih]

/-- C4 counterexample: two option dictionaries equal as sets of entries (one
the permutation of the other), with equal (absent) version requirements,
name and cross flag, still yield different identity keys — the key records
the `kwargs` iteration order. -/
theorem C4_counterexample :
    ([(("a" : String), MVal.atom (.aInt 1)), ("b", MVal.atom (.aInt 2))]).Perm
      ([("b", MVal.atom (.aInt 2)), ("a", MVal.atom (.aInt 1))]) ∧
    get_dep_identifier "d" [("a", MVal.atom (.aInt 1)), ("b", MVal.atom (.aInt 2))] false ≠
      get_dep_identifier "d" [("b", MVal.atom (.aInt 2)), ("a", MVal.atom (.aInt 1))] false := by
  constructor
  · exact List.Perm.swap _ _ _
  · decide

/-- C4 as amended: the key construction is a pure function and is insensitive
to the ordering *inside* list-valued option values (they are frozen into
sets), but the option entries themselves must come in the same order —
matching entries (equal keys, list values equal up to permutation) give
equal keys. -/
theorem C4_identifier_order_insensitive (name : String) (cross : Bool) (k1 k2 : Kwargs)
    (h : List.Forall₂ (fun p q => p.1 = q.1 ∧ MValPermEq p.2 q.2) k1 k2) :
    get_dep_identifier name k1 cross = get_dep_identifier name k2 cross := by
  unfold get_dep_identifier
  rw [identRest_forall₂ h]
  rcases kwargsGet_forall₂ "version" h with ⟨h1, h2⟩ | ⟨v, w, h1, h2, hvw⟩
  · rw [h1, h2]
  · rw [h1, h2]
    simp only [Option.getD_some]
    rw [identPartOf_congr hvw]

/-- Witness for C4's amended statement: a list-valued option with its
elements swapped still produces the same key. -/
theorem C4_identifier_order_insensitive_witness :
    List.Forall₂ (fun p q => p.1 = q.1 ∧ MValPermEq p.2 q.2)
      [(("dirs" : String), MVal.list [.atom (.aStr "p"), .atom (.aStr "q")])]
      [("dirs", MVal.list [.atom (.aStr "q"), .atom (.aStr "p")])] ∧
    get_dep_identifier "d" [("dirs", MVal.list [.atom (.aStr "p"), .atom (.aStr "q")])] false =
      get_dep_identifier "d" [("dirs", MVal.list [.atom (.aStr "q"), .atom (.aStr "p")])] false := by
  have hf : List.Forall₂ (fun p q => p.1 = q.1 ∧ MValPermEq p.2 q.2)
      [(("dirs" : String), MVal.list [.atom (.aStr "p"), .atom (.aStr "q")])]
      [("dirs", MVal.list [.atom (.aStr "q"), .atom (.aStr "p")])] :=
    .cons ⟨rfl, List.Perm.swap _ _ _⟩ .nil
  exact ⟨hf, C4_identifier_order_insensitive "d" false _ _ hf⟩

theorem identRest_eq_map_filter (k : Kwargs) :
    k.filterMap (fun p => if identSkippedKey p.1 then none else some (p.1, identPartOf p.2)) =
    (k.filter (fun p => !identSkippedKey p.1)).map (fun p => (p.1, identPartOf p.2)) := by
  induction k with
  | nil => rfl
  | cons p rest ih =>
    by_cases hp : identSkippedKey p.1 = true
    · simp [List.filterMap_cons, List.filter_cons, hp, ih]
    · simp [List.filterMap_cons, List.filter_cons, hp, ih]

/-- C5: the `required`, `native` and `fallback` options are excluded from the
identity key — two lookups whose options agree outside the lifecycle keys
(and on the version lookup, with the same name and cross flag) get the same
key, whatever those three options are set to. -/
theorem C5_lifecycle_options_excluded (name : String) (cross : Bool) (k1 k2 : Kwargs)
    (hver : kwargsGet k1 "version" = kwargsGet k2 "version")
    (hrest : k1.filter (fun p => !identSkippedKey p.1) =
      k2.filter (fun p => !identSkippedKey p.1)) :
    get_dep_identifier name k1 cross = get_dep_identifier name k2 cross := by
  unfold get_dep_identifier
  rw [identRest_eq_map_filter k1, identRest_eq_map_filter k2, hrest, hver]

/-- Witness for C5: flipping `required`, adding a `fallback`, and flipping
`native` leaves the key of a lookup with a `static` option unchanged. -/
theorem C5_lifecycle_options_excluded_witness :
    kwargsGet [(("required" : String), MVal.atom (.aBool true)), ("static", MVal.atom (.aBool true))] "version" =
      kwargsGet [(("required" : String), MVal.atom (.aBool false)), ("fallback", MVal.atom (.aStr "sub")),
        ("static", MVal.atom (.aBool true)), ("native", MVal.atom (.aBool true))] "version" ∧
    get_dep_identifier "z"
        [(("required" : String), MVal.atom (.aBool true)), ("static", MVal.atom (.aBool true))] true =
      get_dep_identifier "z"
        [(("required" : String), MVal.atom (.aBool false)), ("fallback", MVal.atom (.aStr "sub")),
          ("static", MVal.atom (.aBool true)), ("native", MVal.atom (.aBool true))] true :=
  ⟨rfl, C5_lifecycle_options_excluded "z" true _ _ rfl rfl⟩

/-- C8: on a non-OSX platform, when the pkg-config probe of a generic lookup
raised, `find_external_dependency` re-raises that very exception — it is
neither swallowed nor replaced. -/
theorem C8_pkg_exception_reraised (env : Env) (name : String) (kwargs : Kwargs)
    (st : PkgBinState) (e : DepError)
    (hreq : ∃ b, (kwargsGet kwargs "required").getD (.atom (.aBool true)) = .atom (.aBool b))
    (hmeth : ∃ s, (kwargsGet kwargs "method").getD (.atom (.aStr "")) = .atom (.aStr s))
    (hname : packagesNames.contains (strToLower name) = false)
    (hosx : env.isOSX = false)
    (herr : (pkgConfigInit env name kwargs st).1 = .error e) :
    (findExternalDependency env name kwargs st).1 = .error e := by
  obtain ⟨b, hb⟩ := hreq
  obtain ⟨s, hs⟩ := hmeth
  simp only [findExternalDependency, hb, hs, hname]
  rcases hp : pkgConfigInit env name kwargs st with ⟨r, st', log⟩
  rw [hp] at herr
  simp only at herr
  subst herr
  simp [hp, hosx]

/-- Witness for C8: in the neutral environment pkg-config itself is missing
and the lookup is required, so the probe's exception surfaces unchanged. -/
theorem C8_pkg_exception_reraised_witness :
    (findExternalDependency baseEnv "zlib" [] .unset).1 =
      .error (.dependencyExc "Pkg-config not found.") :=
  C8_pkg_exception_reraised baseEnv "zlib" [] .unset
    (.dependencyExc "Pkg-config not found.")
    ⟨true, rfl⟩ ⟨"", rfl⟩ rfl rfl rfl

theorem pkgFinish_ok_fields (env : Env) (pkgbin name : String) (staticFlag silent : Bool)
    (msg : List String) (d0 d : PkgConfigDep)
    (h : (pkgFinish env pkgbin name staticFlag silent msg d0).1 = .ok d) :
    d.pkgbin = d0.pkgbin ∧ d.is_found = d0.is_found := by
  unfold pkgFinish at h
  split at h
  · exact absurd h (by simp)
  · split at h
    · exact absurd h (by simp)
    · simp only [Except.ok.injEq] at h
      subst h
      exact ⟨rfl, rfl⟩

/-- The post-resolution body never invents a pkg-config path (every returned
record stores the resolved one), and a returned not-found record carries
empty flag lists. -/
theorem pkgPostResolve_ok_fields (env : Env) (name : String)
    (required silent staticFlag want_cross : Bool) (methods : List DependencyMethods)
    (version_reqs : Option MVal) (pkgbinOpt : Option String) (d : PkgConfigDep)
    (h : (pkgConfigPostResolve env name required silent staticFlag want_cross methods
        version_reqs pkgbinOpt).1 = .ok d) :
    d.pkgbin = pkgbinOpt ∧ (d.is_found = false → d.cargs = [] ∧ d.libs = []) := by
  simp only [pkgConfigPostResolve] at h
  repeat' split at h
  all_goals
    first
      | (exfalso; cases h; done)
      | (obtain ⟨h1, h2⟩ := pkgFinish_ok_fields _ _ _ _ _ _ _ _ h
         refine ⟨h1, fun hf => ?_⟩
         rw [h2] at hf
         simp at hf)
      | (cases h; exact ⟨rfl, fun _ => ⟨rfl, rfl⟩⟩)

/-- C6 counterexample: a cross lookup that resolves the cross-file
`i686-pkg-config` *does* write the process-wide memoized slot, and a
subsequent native lookup reuses that cross path instead of its own
independent resolution (which would have found `/usr/bin/pkg-config`). -/
theorem C6_counterexample :
    (pkgConfigInit envCrossPkg "zlib" [] .unset).2.1 = .found "/usr/bin/i686-pkg-config" ∧
    (pkgConfigInit envCrossPkg "glib" [("native", .atom (.aBool true))]
        (.found "/usr/bin/i686-pkg-config")).1 =
      .ok { name := "glib", is_found := true, modversion := "1.0", cargs := [], libs := []
          , pkgbin := some "/usr/bin/i686-pkg-config", want_cross := false
          , is_libtool := false, methods := [.pkgconfig] } ∧
    check_pkgconfig envCrossPkg = some "/usr/bin/pkg-config" :=
  ⟨by decide, by decide, by decide⟩

/-- C6 as amended: a successful cross resolution stores its path in the
process-wide memoized slot, and a native lookup whose slot is populated
reuses whatever it holds — so a cross-resolved tool path *is* reused by
subsequent native lookups; an independent native search happens only when
the slot is still unset. -/
theorem C6_cross_resolution_memoized :
    (∀ (env : Env) (name : String) (kwargs : Kwargs) (st : PkgBinState) (p : String)
        (rest : List (Option String)) (ms : List DependencyMethods) (b : Bool),
      dependencyInitMethods [.pkgconfig] kwargs = .ok ms →
      staticValOf kwargs = .ok b →
      wantCrossOf env kwargs = true →
      env.crossHasPkgconfig = true →
      (externalProgramMk env env.crossPkgconfigName none none).command = some p :: rest →
      (pkgConfigInit env name kwargs st).2.1 = .found p) ∧
    (∀ (env : Env) (name : String) (kwargs : Kwargs) (p : String)
        (ms : List DependencyMethods) (b : Bool),
      dependencyInitMethods [.pkgconfig] kwargs = .ok ms →
      staticValOf kwargs = .ok b →
      wantCrossOf env kwargs = false →
      (pkgConfigInit env name kwargs (.found p)).2.1 = .found p ∧
      (∀ d, (pkgConfigInit env name kwargs (.found p)).1 = .ok d → d.pkgbin = some p)) := by
  constructor
  · intro env name kwargs st p rest ms b hms hb hwc hcross hcmd
    have hres : ∀ r : Bool, resolvePkgbin env true r st = (.ok (some p), .found p) := by
      intro r
      unfold resolvePkgbin
      simp only [hcross, ExternalProgram.get_command, hcmd]
      simp
    simp only [pkgConfigInit, hms, hb, hwc, hres]
  · intro env name kwargs p ms b hms hb hwc
    have hres : ∀ r : Bool, resolvePkgbin env false r (.found p) = (.ok (some p), .found p) := by
      intro r
      unfold resolvePkgbin
      simp
    constructor
    · simp only [pkgConfigInit, hms, hb, hwc, hres]
    · intro d hd
      simp only [pkgConfigInit, hms, hb, hwc, hres] at hd
      exact (pkgPostResolve_ok_fields _ _ _ _ _ _ _ _ _ _ hd).1

/-- Witness for C6's amended statement in the concrete cross environment. -/
theorem C6_cross_resolution_memoized_witness :
    (pkgConfigInit envCrossPkg "zlib" [] .unset).2.1 = .found "/usr/bin/i686-pkg-config" ∧
    ((pkgConfigInit envCrossPkg "glib" [("native", .atom (.aBool true))]
        (.found "/usr/bin/i686-pkg-config")).2.1 = .found "/usr/bin/i686-pkg-config" ∧
      ∀ d, (pkgConfigInit envCrossPkg "glib" [("native", .atom (.aBool true))]
          (.found "/usr/bin/i686-pkg-config")).1 = .ok d →
        d.pkgbin = some "/usr/bin/i686-pkg-config") :=
  ⟨C6_cross_resolution_memoized.1 envCrossPkg "zlib" [] .unset "/usr/bin/i686-pkg-config"
      [] [.pkgconfig] false rfl rfl rfl rfl (by decide),
   C6_cross_resolution_memoized.2 envCrossPkg "glib" [("native", .atom (.aBool true))]
      "/usr/bin/i686-pkg-config" [.pkgconfig] false rfl rfl rfl⟩

/-- C2: when version requirements are supplied and the queried version fails
them, the lookup raises the `DependencyException` (whose message carries the
unmet requirements) iff it was required, and otherwise returns a not-found
record with empty flag lists; in both cases the logged report lists exactly
the unmet requirements (the filter of failing ones) and the met ones. -/
theorem C2_version_mismatch (env : Env) (name mv pb : String) (kwargs : Kwargs)
    (vr : MVal) (reqs : List String)
    (hmeth : kwargsGet kwargs "method" = none)
    (hstatic : kwargsGet kwargs "static" = none)
    (hsilent : kwargsGet kwargs "silent" = none)
    (hwc : wantCrossOf env kwargs = false)
    (hpb : pb ≠ "")
    (hmod : env.callPkgbin pb ["--modversion", name] = (0, mv))
    (hver : kwargsGet kwargs "version" = some vr)
    (hreqs : reqStringsOf vr = .ok reqs)
    (hfail : (version_compare_many mv reqs).1 = false) :
    (version_compare_many mv reqs).2.1 = reqs.filter (fun r => !version_compare mv r) ∧
    (version_compare_many mv reqs).2.2 = reqs.filter (fun r => version_compare mv r) ∧
    (pkgConfigInit env name kwargs (.found pb)).2.2 =
      [mismatchFoundMsg "Native" name mv (version_compare_many mv reqs).2.1
        (version_compare_many mv reqs).2.2] ∧
    (((kwargsGet kwargs "required").getD (.atom (.aBool true))).truthy = true →
      (pkgConfigInit env name kwargs (.found pb)).1 =
        .error (.dependencyExc ("Invalid version of dependency, need " ++ pyq name ++
          " " ++ pyReprStrList (version_compare_many mv reqs).2.1 ++ " found " ++
          pyq mv ++ "."))) ∧
    (((kwargsGet kwargs "required").getD (.atom (.aBool true))).truthy = false →
      ∃ d, (pkgConfigInit env name kwargs (.found pb)).1 = .ok d ∧ d.is_found = false ∧
        d.modversion = mv ∧ d.cargs = [] ∧ d.libs = []) := by
  have hdm : dependencyInitMethods [.pkgconfig] kwargs = .ok [.pkgconfig] := by
    unfold dependencyInitMethods
    rw [hmeth]
    rfl
  have hstat : staticValOf kwargs = .ok false := by
    unfold staticValOf
    rw [hstatic]
    rfl
  have hres : ∀ r : Bool, resolvePkgbin env false r (.found pb) =
      (.ok (some pb), .found pb) := by
    intro r
    unfold resolvePkgbin
    simp
  have hpbt : pkgbinTruthy (some pb) = true := by simp [pkgbinTruthy, hpb]
  have hsil : ((kwargsGet kwargs "silent").getD (.atom (.aBool false))).truthy = false := by
    rw [hsilent]
    rfl
  refine ⟨rfl, rfl, ?_, ?_, ?_⟩
  · cases hr : ((kwargsGet kwargs "required").getD (.atom (.aBool true))).truthy <;>
      simp [pkgConfigInit, hdm, hstat, hwc, hres, pkgConfigPostResolve, hpbt, hmod, hver,
        hreqs, hsil, hfail, hr]
  · intro hr
    simp [pkgConfigInit, hdm, hstat, hwc, hres, pkgConfigPostResolve, hpbt, hmod, hver,
      hreqs, hsil, hfail, hr]
  · intro hr
    refine ⟨{ name := name, is_found := false, modversion := mv, cargs := [], libs := []
            , pkgbin := some pb, want_cross := false, is_libtool := false
            , methods := [.pkgconfig] }, ?_, rfl, rfl, rfl, rfl⟩
    simp [pkgConfigInit, hdm, hstat, hwc, hres, pkgConfigPostResolve, hpbt, hmod, hver,
      hreqs, hsil, hfail, hr]

/-- Witness for C2: pkg-config reports `2.1.0` against the requirement
`>=3.0`; the required lookup raises naming the unmet requirement, the
non-required one returns a not-found record, and the report is logged. -/
theorem C2_version_mismatch_witness :
    ((pkgConfigInit envPkgVer "dep" [("version", .atom (.aStr ">=3.0"))]
        (.found "/usr/bin/pkg-config")).1 =
      .error (.dependencyExc ("Invalid version of dependency, need " ++ pyq "dep" ++
        " " ++ pyReprStrList (version_compare_many "2.1.0" [">=3.0"]).2.1 ++ " found " ++
        pyq "2.1.0" ++ "."))) ∧
    (∃ d, (pkgConfigInit envPkgVer "dep"
        [("version", .atom (.aStr ">=3.0")), ("required", .atom (.aBool false))]
        (.found "/usr/bin/pkg-config")).1 = .ok d ∧ d.is_found = false ∧
      d.modversion = "2.1.0" ∧ d.cargs = [] ∧ d.libs = []) ∧
    (pkgConfigInit envPkgVer "dep" [("version", .atom (.aStr ">=3.0"))]
        (.found "/usr/bin/pkg-config")).2.2 =
      [mismatchFoundMsg "Native" "dep" "2.1.0" (version_compare_many "2.1.0" [">=3.0"]).2.1
        (version_compare_many "2.1.0" [">=3.0"]).2.2] :=
  ⟨(C2_version_mismatch envPkgVer "dep" "2.1.0" "/usr/bin/pkg-config"
      [("version", .atom (.aStr ">=3.0"))] (.atom (.aStr ">=3.0")) [">=3.0"]
      rfl rfl rfl rfl (by decide) rfl rfl rfl (by decide)).2.2.2.1 (by decide),
   (C2_version_mismatch envPkgVer "dep"
      "2.1.0" "/usr/bin/pkg-config"
      [("version", .atom (.aStr ">=3.0")), ("required", .atom (.aBool false))]
      (.atom (.aStr ">=3.0")) [">=3.0"]
      rfl rfl rfl rfl (by decide) rfl rfl rfl (by decide)).2.2.2.2 (by decide),
   (C2_version_mismatch envPkgVer "dep" "2.1.0" "/usr/bin/pkg-config"
      [("version", .atom (.aStr ">=3.0"))] (.atom (.aStr ">=3.0")) [">=3.0"]
      rfl rfl rfl rfl (by decide) rfl rfl rfl (by decide)).2.2.1⟩

theorem pkgInit_ok_notfound_empty (env : Env) (name : String) (kwargs : Kwargs)
    (st : PkgBinState) (d : PkgConfigDep)
    (h : (pkgConfigInit env name kwargs st).1 = .ok d)
    (hf : d.is_found = false) : d.cargs = [] ∧ d.libs = [] := by
  simp only [pkgConfigInit] at h
  repeat' split at h
  all_goals first
    | (exfalso; cases h; done)
    | exact (pkgPostResolve_ok_fields _ _ _ _ _ _ _ _ _ _ h).2 hf

theorem extraFramework_ok_notfound_empty (env : Env) (name : String) (req : Bool)
    (path : Option String) (kwargs : Kwargs) (r : DepRecord)
    (h : extraFrameworkInit env name req path kwargs = .ok r)
    (hf : r.found = false) :
    r.compileArgs = [] ∧ r.linkArgs = [] ∧ r.sources = [] := by
  simp only [extraFrameworkInit] at h
  cases hdm : dependencyInitMethods [.auto] kwargs with
  | error e => rw [hdm] at h; cases h
  | ok ms =>
    simp only [hdm] at h
    cases path with
    | none =>
      cases hscan : frameworkScan env (strToLower name) ["/Library/Frameworks"] with
      | some pd =>
        obtain ⟨p, d⟩ := pd
        simp only [hscan] at h
        cases h
        exact absurd hf (by simp)
      | none =>
        simp only [hscan] at h
        cases h
        exact ⟨rfl, rfl, rfl⟩
    | some pv =>
      cases hscan : frameworkScan env (strToLower name) [pv] with
      | some pd =>
        obtain ⟨p, d⟩ := pd
        simp only [hscan] at h
        cases h
        exact absurd hf (by simp)
      | none =>
        simp only [hscan] at h
        cases h
        exact ⟨rfl, rfl, rfl⟩

theorem extraFrameworkInit_ok (env : Env) (name : String) (req : Bool)
    (path : Option String) (kwargs : Kwargs)
    (hmeth : kwargsGet kwargs "method" = none) :
    ∃ r, extraFrameworkInit env name req path kwargs = .ok r := by
  have hdm : dependencyInitMethods [.auto] kwargs = .ok [.auto] := by
    unfold dependencyInitMethods
    rw [hmeth]
    rfl
  simp only [extraFrameworkInit, hdm]
  cases path with
  | none =>
    cases hscan : frameworkScan env (strToLower name) ["/Library/Frameworks"] with
    | none => exact ⟨_, rfl⟩
    | some pd =>
      obtain ⟨p, d⟩ := pd
      exact ⟨_, rfl⟩
  | some pv =>
    cases hscan : frameworkScan env (strToLower name) [pv] with
    | none => exact ⟨_, rfl⟩
    | some pd =>
      obtain ⟨p, d⟩ := pd
      exact ⟨_, rfl⟩

/-- C1 counterexample: a non-required `appleframeworks` lookup on a non-OSX
platform returns (without raising) a record with `found() = false` whose
link-flag list is nevertheless non-empty — `AppleFrameworks.get_link_args`
emits its `-framework` flags unconditionally. -/
theorem C1_counterexample :
    (findExternalDependency baseEnv "appleframeworks"
      [("required", .atom (.aBool false)), ("modules", .atom (.aStr "Foundation"))]
      .unset).1 =
      .ok { name := "null", type_name := "appleframeworks", found := false
          , compileArgs := [], linkArgs := ["-framework", "Foundation"], sources := []
          , needThreads := false, version := some "unknown", methods := [.auto] } ∧
    (["-framework", "Foundation"] : List String) ≠ [] :=
  ⟨by decide, by decide⟩

/-- C1 as amended: (i) on the generic resolver path every returned record
with `found() = false` carries empty compile-flag, link-flag and source
lists; (ii) a non-required generic lookup whose pkg-config outcome is
not-found does not raise; (iii) the platform-framework detector is the
exception — its compile-flag and source lists are empty but its link flags
are the `-framework` pairs of its modules regardless of `found()`, which is
platform identity alone. -/
theorem C1_notfound_records :
    (∀ (env : Env) (name : String) (kwargs : Kwargs) (st : PkgBinState) (r : DepRecord),
      packagesNames.contains (strToLower name) = false →
      (findExternalDependency env name kwargs st).1 = .ok r →
      r.found = false →
      r.compileArgs = [] ∧ r.linkArgs = [] ∧ r.sources = []) ∧
    (∀ (env : Env) (name : String) (kwargs : Kwargs) (st : PkgBinState),
      packagesNames.contains (strToLower name) = false →
      kwargsGet kwargs "required" = some (.atom (.aBool false)) →
      kwargsGet kwargs "method" = none →
      kwargsGet kwargs "static" = none →
      pkgNotFoundCond env name kwargs st →
      ∃ r, (findExternalDependency env name kwargs st).1 = .ok r) ∧
    (∀ (env : Env) (kwargs : Kwargs) (frameworks : List String) (r : DepRecord),
      appleModules ((kwargsGet kwargs "modules").getD (.list [])) = .ok frameworks →
      appleFrameworksInit env kwargs = .ok r →
      r.found = env.isOSX ∧ r.compileArgs = [] ∧ r.sources = [] ∧
        r.linkArgs = appleFrameworksLinkArgs frameworks ∧
        (frameworks ≠ [] → r.linkArgs ≠ [])) := by
  refine ⟨?_, ?_, ?_⟩
  · intro env name kwargs st r hname hok hfound
    unfold findExternalDependency at hok
    cases hv : (kwargsGet kwargs "required").getD (.atom (.aBool true)) with
    | list l => rw [hv] at hok; cases hok
    | atom a =>
      rw [hv] at hok
      cases a with
      | aStr s => cases hok
      | aInt n => cases hok
      | aBool b =>
        cases hm : (kwargsGet kwargs "method").getD (.atom (.aStr "")) with
        | list l2 => rw [hm] at hok; cases hok
        | atom a2 =>
          rw [hm] at hok
          cases a2 with
          | aInt n2 => cases hok
          | aBool b2 => cases hok
          | aStr s2 =>
            dsimp only at hok
            rw [hname] at hok
            simp only [Bool.false_eq_true, if_false] at hok
            rcases hp : pkgConfigInit env name kwargs st with ⟨pr, st2, log2⟩
            rw [hp] at hok
            cases pr with
            | error e =>
              cases hosx : env.isOSX with
              | false => simp only [hosx, Bool.false_eq_true, if_false] at hok; cases hok
              | true =>
                simp only [hosx, if_true] at hok
                cases hfw : extraFrameworkInit env name b none kwargs with
                | error e2 => rw [hfw] at hok; cases hok
                | ok fwdep =>
                  rw [hfw] at hok
                  cases hc : (b && !fwdep.found) with
                  | true => simp only [hc, if_true] at hok; cases hok
                  | false =>
                    simp only [hc, Bool.false_eq_true, if_false] at hok
                    cases hok
                    exact extraFramework_ok_notfound_empty env name b none kwargs _ hfw hfound
            | ok pkgdep =>
              cases hisf : pkgdep.is_found with
              | true =>
                simp only [hisf, if_true] at hok
                cases hok
                exact absurd hfound (by simp [pkgRecordOf, hisf])
              | false =>
                simp only [hisf, Bool.false_eq_true, if_false] at hok
                cases hosx : env.isOSX with
                | false =>
                  simp only [hosx, Bool.false_eq_true, if_false] at hok
                  cases hok
                  obtain ⟨hc, hl⟩ := pkgInit_ok_notfound_empty env name kwargs st pkgdep
                    (by rw [hp]) hisf
                  exact ⟨by simp [pkgRecordOf, hc], by simp [pkgRecordOf, hl], rfl⟩
                | true =>
                  simp only [hosx, if_true] at hok
                  cases hfw : extraFrameworkInit env name b none kwargs with
                  | error e2 => rw [hfw] at hok; cases hok
                  | ok fwdep =>
                    rw [hfw] at hok
                    cases hc : (b && !fwdep.found) with
                    | true => simp only [hc, if_true] at hok; cases hok
                    | false =>
                      simp only [hc, Bool.false_eq_true, if_false] at hok
                      cases hok
                      exact extraFramework_ok_notfound_empty env name b none kwargs _ hfw hfound
  · intro env name kwargs st hname hreq hmeth hstatic hcond
    have hdm : dependencyInitMethods [.pkgconfig] kwargs = .ok [.pkgconfig] := by
      unfold dependencyInitMethods
      rw [hmeth]
      rfl
    have hstat : staticValOf kwargs = .ok false := by
      unfold staticValOf
      rw [hstatic]
      rfl
    have hreqT : ((kwargsGet kwargs "required").getD (.atom (.aBool true))).truthy = false := by
      rw [hreq]
      rfl
    have hprobe : ∃ d, (pkgConfigInit env name kwargs st).1 = .ok d ∧ d.is_found = false := by
      unfold pkgNotFoundCond at hcond
      rcases hrb : resolvePkgbin env (wantCrossOf env kwargs) false st with ⟨rpb, st2⟩
      rw [hrb] at hcond
      cases rpb with
      | error e => exact hcond.elim
      | ok pb =>
        simp only [pkgConfigInit, hdm, hstat, hreqT, hrb]
        rcases hcond with hfalse | ⟨p, hpb, hrest⟩
        · refine ⟨{ name := name, is_found := false, modversion := "none", cargs := [],
                    libs := [], pkgbin := pb, want_cross := wantCrossOf env kwargs,
                    is_libtool := false, methods := [.pkgconfig] }, ?_, rfl⟩
          simp [pkgConfigPostResolve, hfalse]
        · subst hpb
          rcases hcall : env.callPkgbin p ["--modversion", name] with ⟨ret, modv⟩
          rw [hcall] at hrest
          by_cases hpt : pkgbinTruthy (some p) = true
          · by_cases hret : ret = 0
            · rcases hrest with hr0 | ⟨vr, reqs, hv, hr, hfail⟩
              · exact absurd hret hr0
              · refine ⟨{ name := name, is_found := false, modversion := modv, cargs := [],
                          libs := [], pkgbin := some p, want_cross := wantCrossOf env kwargs,
                          is_libtool := false, methods := [.pkgconfig] }, ?_, rfl⟩
                simp [pkgConfigPostResolve, hpt, hcall, hret, hv, hr, hfail]
            · refine ⟨{ name := name, is_found := false, modversion := modv, cargs := [],
                        libs := [], pkgbin := some p, want_cross := wantCrossOf env kwargs,
                        is_libtool := false, methods := [.pkgconfig] }, ?_, rfl⟩
              simp [pkgConfigPostResolve, hpt, hcall, hret]
          · have hf2 : pkgbinTruthy (some p) = false := by
              cases hx : pkgbinTruthy (some p) with
              | false => rfl
              | true => exact absurd hx hpt
            refine ⟨{ name := name, is_found := false, modversion := "none", cargs := [],
                      libs := [], pkgbin := some p, want_cross := wantCrossOf env kwargs,
                      is_libtool := false, methods := [.pkgconfig] }, ?_, rfl⟩
            simp [pkgConfigPostResolve, hf2]
    obtain ⟨d, hd, hdf⟩ := hprobe
    unfold findExternalDependency
    rw [hreq, hmeth]
    dsimp only [Option.getD_some, Option.getD_none]
    rw [hname]
    simp only [Bool.false_eq_true, if_false]
    rcases hp : pkgConfigInit env name kwargs st with ⟨pr, st2, log2⟩
    rw [hp] at hd
    simp only at hd
    subst hd
    simp only [hdf, Bool.false_eq_true, if_false]
    cases hosx : env.isOSX with
    | false =>
      simp only [hosx, Bool.false_eq_true, if_false]
      exact ⟨_, rfl⟩
    | true =>
      simp only [hosx, if_true]
      obtain ⟨fwrec, hfw⟩ := extraFrameworkInit_ok env name false none kwargs hmeth
      rw [hfw]
      simp only [Bool.false_and, Bool.false_eq_true, if_false]
      exact ⟨_, rfl⟩
  · intro env kwargs frameworks r hmods happle
    unfold appleFrameworksInit at happle
    cases hdm : dependencyInitMethods [.auto] kwargs with
    | error e => rw [hdm] at happle; cases happle
    | ok ms =>
      simp only [hdm, hmods] at happle
      cases happle
      refine ⟨rfl, rfl, rfl, rfl, fun hne => ?_⟩
      cases frameworks with
      | nil => exact absurd rfl hne
      | cons f fs => simp [appleFrameworksLinkArgs]

/-- Witness for C1's amended statement: a not-found non-required `zlib`
lookup in the neutral environment (empty record, no raise), and the
`appleframeworks` record with its unconditional link flags. -/
theorem C1_notfound_records_witness :
    ({ name := "zlib", type_name := "pkgconfig", found := false, compileArgs := [],
       linkArgs := [], sources := [], needThreads := false, version := some "none",
       methods := [DependencyMethods.pkgconfig] } : DepRecord).compileArgs = [] ∧
    (∃ r, (findExternalDependency baseEnv "zlib"
      [("required", .atom (.aBool false))] .unset).1 = .ok r) ∧
    (({ name := "null", type_name := "appleframeworks", found := false, compileArgs := [],
        linkArgs := ["-framework", "Foundation"], sources := [], needThreads := false,
        version := some "unknown", methods := [DependencyMethods.auto] } : DepRecord).found =
      baseEnv.isOSX ∧
      (["Foundation"] : List String) ≠ [] ∧
      ({ name := "null", type_name := "appleframeworks", found := false, compileArgs := [],
         linkArgs := ["-framework", "Foundation"], sources := [], needThreads := false,
         version := some "unknown", methods := [DependencyMethods.auto] } : DepRecord).linkArgs ≠ []) :=
  ⟨(C1_notfound_records.1 baseEnv "zlib" [("required", .atom (.aBool false))] .unset
      { name := "zlib", type_name := "pkgconfig", found := false, compileArgs := [],
        linkArgs := [], sources := [], needThreads := false, version := some "none",
        methods := [DependencyMethods.pkgconfig] } rfl (by decide) rfl).1,
   C1_notfound_records.2.1 baseEnv "zlib" [("required", .atom (.aBool false))] .unset
      rfl rfl rfl rfl (Or.inl rfl),
   (C1_notfound_records.2.2 baseEnv [("modules", .atom (.aStr "Foundation"))]
      ["Foundation"]
      { name := "null", type_name := "appleframeworks", found := false, compileArgs := [],
        linkArgs := ["-framework", "Foundation"], sources := [], needThreads := false,
        version := some "unknown", methods := [DependencyMethods.auto] } rfl (by decide)).1,
   (by decide),
   (C1_notfound_records.2.2 baseEnv [("modules", .atom (.aStr "Foundation"))]
      ["Foundation"]
      { name := "null", type_name := "appleframeworks", found := false, compileArgs := [],
        linkArgs := ["-framework", "Foundation"], sources := [], needThreads := false,
        version := some "unknown", methods := [DependencyMethods.auto] } rfl (by decide)).2.2.2.2
     (by decide)⟩

end Meson
